import Mathlib

/-!
# Flowchart editor: scene model and canvas geometry

A shallow embedding of `src/frontend/src/app/page.js` (the `FlowchartPage`
component) together with theorems about it.

Numbers.  JavaScript numbers are modelled over an arbitrary linearly ordered
field `K` (exact arithmetic, no rounding, a single unsigned zero).  The values
a division by zero produces are kept explicit in `JsNum K`.  `Math.sqrt` is a
parameter `sqrt : K → K` of every function that calls it.
-/

set_option autoImplicit false

namespace Flowchart

/-! ## Numbers -/

/-- A JavaScript number: a finite value, `Infinity`, `-Infinity` or `NaN`. -/
inductive JsNum (K : Type) where
  | fin (v : K)
  | posInf
  | negInf
  | nan
  deriving DecidableEq

namespace JsNum

variable {K : Type} [LinearOrderedField K]

/-- Addition of JavaScript numbers. -/
def add : JsNum K → JsNum K → JsNum K
  | fin a, fin b => fin (a + b)
  | fin _, posInf => posInf
  | fin _, negInf => negInf
  | posInf, fin _ => posInf
  | posInf, posInf => posInf
  | posInf, negInf => nan
  | negInf, fin _ => negInf
  | negInf, posInf => nan
  | negInf, negInf => negInf
  | nan, _ => nan
  | fin _, nan => nan
  | posInf, nan => nan
  | negInf, nan => nan

/-- Multiplication of JavaScript numbers (`0 * Infinity` is `NaN`). -/
def mul : JsNum K → JsNum K → JsNum K
  | fin a, fin b => fin (a * b)
  | fin a, posInf => if a = 0 then nan else if 0 < a then posInf else negInf
  | fin a, negInf => if a = 0 then nan else if 0 < a then negInf else posInf
  | posInf, fin b => if b = 0 then nan else if 0 < b then posInf else negInf
  | negInf, fin b => if b = 0 then nan else if 0 < b then negInf else posInf
  | posInf, posInf => posInf
  | posInf, negInf => negInf
  | negInf, posInf => negInf
  | negInf, negInf => posInf
  | nan, _ => nan
  | fin _, nan => nan
  | posInf, nan => nan
  | negInf, nan => nan

/-- Division of JavaScript numbers: `0 / 0` is `NaN`, a non-zero value over
zero is an infinity of the sign of the numerator (every zero divisor of the
embedded code is `+0` or sits under `Math.abs`). -/
def div : JsNum K → JsNum K → JsNum K
  | fin a, fin b =>
      if b = 0 then (if a = 0 then nan else if 0 < a then posInf else negInf)
      else fin (a / b)
  | fin _, posInf => fin 0
  | fin _, negInf => fin 0
  | posInf, fin b => if 0 ≤ b then posInf else negInf
  | negInf, fin b => if 0 ≤ b then negInf else posInf
  | posInf, posInf => nan
  | posInf, negInf => nan
  | negInf, posInf => nan
  | negInf, negInf => nan
  | nan, _ => nan
  | fin _, nan => nan
  | posInf, nan => nan
  | negInf, nan => nan

/-- The function `Math.abs`. -/
def abs : JsNum K → JsNum K
  | fin a => fin |a|
  | posInf => posInf
  | negInf => posInf
  | nan => nan

/-- The comparison `a <= b`; false as soon as one side is `NaN`. -/
def le : JsNum K → JsNum K → Bool
  | fin a, fin b => decide (a ≤ b)
  | fin _, posInf => true
  | fin _, negInf => false
  | posInf, fin _ => false
  | posInf, posInf => true
  | posInf, negInf => false
  | negInf, fin _ => true
  | negInf, posInf => true
  | negInf, negInf => true
  | nan, _ => false
  | fin _, nan => false
  | posInf, nan => false
  | negInf, nan => false

/-- The comparison `a > b`; false as soon as one side is `NaN`. -/
def gt : JsNum K → JsNum K → Bool
  | fin a, fin b => decide (b < a)
  | fin _, posInf => false
  | fin _, negInf => true
  | posInf, fin _ => true
  | posInf, posInf => false
  | posInf, negInf => true
  | negInf, fin _ => false
  | negInf, posInf => false
  | negInf, negInf => false
  | nan, _ => false
  | fin _, nan => false
  | posInf, nan => false
  | negInf, nan => false

/-- Unary minus. -/
def neg : JsNum K → JsNum K
  | fin a => fin (-a)
  | posInf => negInf
  | negInf => posInf
  | nan => nan

/-- Subtraction: `a - b` is `a + (-b)`. -/
def sub (a b : JsNum K) : JsNum K := add a (neg b)

/-- The function `Math.sqrt`, given the square root `sqrt` of the finite non-negative
values. -/
def sqrt (sqrt : K → K) : JsNum K → JsNum K
  | fin a => if a < 0 then nan else fin (sqrt a)
  | posInf => posInf
  | negInf => nan
  | nan => nan

/-- The function `Math.min` of two arguments: `NaN` as soon as one side is
`NaN`. -/
def min : JsNum K → JsNum K → JsNum K
  | fin a, fin b => fin (if a ≤ b then a else b)
  | fin a, posInf => fin a
  | fin _, negInf => negInf
  | posInf, fin b => fin b
  | posInf, posInf => posInf
  | posInf, negInf => negInf
  | negInf, fin _ => negInf
  | negInf, posInf => negInf
  | negInf, negInf => negInf
  | nan, _ => nan
  | fin _, nan => nan
  | posInf, nan => nan
  | negInf, nan => nan

/-- The function `Math.max` of two arguments: `NaN` as soon as one side is
`NaN`. -/
def max : JsNum K → JsNum K → JsNum K
  | fin a, fin b => fin (if a ≤ b then b else a)
  | fin _, posInf => posInf
  | fin a, negInf => fin a
  | posInf, fin _ => posInf
  | posInf, posInf => posInf
  | posInf, negInf => posInf
  | negInf, fin b => fin b
  | negInf, posInf => posInf
  | negInf, negInf => negInf
  | nan, _ => nan
  | fin _, nan => nan
  | posInf, nan => nan
  | negInf, nan => nan

instance : Add (JsNum K) := ⟨add⟩
instance : Sub (JsNum K) := ⟨sub⟩
instance : Mul (JsNum K) := ⟨mul⟩
instance : Div (JsNum K) := ⟨div⟩

end JsNum

/-! ## Data model -/

/-- A point `{ x, y }`. -/
structure Point (α : Type) where
  x : α
  y : α
  deriving DecidableEq

/-- The key of a connection handle. -/
inductive HandleId where
  | top
  | right
  | bottom
  | left
  deriving DecidableEq, Repr

/-- A node object, as `createNode` builds it. -/
structure Node (K : Type) where
  id : String
  type : String
  x : K
  y : K
  width : K
  height : K
  text : String
  color : String
  textColor : String
  borderColor : String
  borderWidth : K
  deriving DecidableEq

/-- A connection object, as `createConnection` builds it. -/
structure Connection (K : Type) where
  id : String
  from_ : String
  to_ : String
  fromHandle : Option HandleId
  toHandle : Option HandleId
  color : String
  width : K
  arrowSize : K
  deriving DecidableEq

/-- The `viewBox` state. -/
structure ViewBox (K : Type) where
  x : K
  y : K
  width : K
  height : K
  deriving DecidableEq

/-- The floating preview `{ x, y, type }` of a palette drag. -/
structure DragPreview (K : Type) where
  x : K
  y : K
  type : String
  deriving DecidableEq

/-- The rectangle `svgRef.current.getBoundingClientRect()` of the mounted
canvas element; a mounted canvas has a positive width and height. -/
structure Bounds (K : Type) [LinearOrderedField K] where
  left : K
  top : K
  width : K
  height : K
  width_pos : 0 < width
  height_pos : 0 < height

/-- The fields the handlers read from a mouse or wheel event.  `targetIsSvg`
is `e.target === svgRef.current`, `targetInSvg` is
`e.target.closest('svg') === svgRef.current`. -/
structure MouseEvent (K : Type) where
  clientX : K
  clientY : K
  deltaY : K
  detail : Nat
  ctrlKey : Bool
  metaKey : Bool
  targetIsSvg : Bool
  targetInSvg : Bool

/-- The `useState` cells of `FlowchartPage` (those of the persistence dialogs
left out).  The zoom factor is a JavaScript number: `fitToCanvas` divides by
the size of the content box, which can be zero. -/
structure State (K : Type) where
  nodes : List (Node K)
  connections : List (Connection K)
  selectedNode : Option (Node K)
  hoveredNode : Option String
  isDragging : Bool
  dragOffset : Point K
  isConnecting : Bool
  connectionStart : Option String
  connectionStartHandle : Option HandleId
  currentMousePos : Point K
  dragPreview : Option (DragPreview K)
  editingNode : Option String
  editingText : String
  viewBox : ViewBox K
  zoom : JsNum K
  isPanning : Bool
  lastMousePos : Point K
  isDraggingFromToolbar : Bool
  toolbarDragType : Option String
  nodeIdCounter : Nat
  currentFlowchartId : Option String
  flowchartName : String

section Ops

variable {K : Type} [LinearOrderedField K]

/-- The state of a freshly mounted component. -/
def State.initial : State K :=
  { nodes := [], connections := [], selectedNode := none, hoveredNode := none,
    isDragging := false, dragOffset := ⟨0, 0⟩, isConnecting := false,
    connectionStart := none, connectionStartHandle := none,
    currentMousePos := ⟨0, 0⟩, dragPreview := none, editingNode := none,
    editingText := "", viewBox := ⟨0, 0, 1200, 800⟩, zoom := .fin 1,
    isPanning := false, lastMousePos := ⟨0, 0⟩, isDraggingFromToolbar := false,
    toolbarDragType := none, nodeIdCounter := 1, currentFlowchartId := none,
    flowchartName := "Untitled Flowchart" }

/-! ## Scene operations -/

/-- The operation `deleteNode(id)`: drops the node and every connection that touches it. -/
def deleteNode (s : State K) (id : String) : State K :=
  { s with
    nodes := s.nodes.filter (fun node => node.id ≠ id)
    connections := s.connections.filter (fun conn => conn.from_ ≠ id ∧ conn.to_ ≠ id)
    selectedNode := none }

/-- The operation `createConnection(fromId, toId, fromHandle, toHandle)`; `now` is the value
of `Date.now()`. -/
def createConnection (s : State K) (now : Nat) (fromId toId : String)
    (fromHandle toHandle : Option HandleId) : State K :=
  if fromId = toId then s
  else
    match s.connections.find? (fun conn =>
        (conn.from_ = fromId ∧ conn.to_ = toId) ∨ (conn.from_ = toId ∧ conn.to_ = fromId)) with
    | some _ => s
    | none =>
      let newConnection : Connection K :=
        { id := "conn-" ++ toString now, from_ := fromId, to_ := toId,
          fromHandle := fromHandle, toHandle := toHandle,
          color := "#374151", width := 2, arrowSize := 8 }
      { s with connections := s.connections ++ [newConnection] }

/-! ## Shape geometry -/

/-- The function `getNodeCenter(node)`. -/
def getNodeCenter (node : Node K) : Point K :=
  { x := node.x + node.width / 2, y := node.y + node.height / 2 }

/-- A handle `{ x, y, id }`. -/
structure Handle (K : Type) where
  x : K
  y : K
  id : HandleId
  deriving DecidableEq

/-- The object `{ top, right, bottom, left }` that `getNodeHandles` returns. -/
structure Handles (K : Type) where
  top : Handle K
  right : Handle K
  bottom : Handle K
  left : Handle K
  deriving DecidableEq

/-- The function `getNodeHandles(node)`, with its three branches on `node.type`. -/
def getNodeHandles (node : Node K) : Handles K :=
  let cx := node.x + node.width / 2
  let cy := node.y + node.height / 2
  if node.type = "circle" then
    { top := { x := cx, y := node.y, id := .top },
      right := { x := node.x + node.width, y := cy, id := .right },
      bottom := { x := cx, y := node.y + node.height, id := .bottom },
      left := { x := node.x, y := cy, id := .left } }
  else if node.type = "diamond" then
    { top := { x := cx, y := node.y, id := .top },
      right := { x := node.x + node.width, y := cy, id := .right },
      bottom := { x := cx, y := node.y + node.height, id := .bottom },
      left := { x := node.x, y := cy, id := .left } }
  else
    { top := { x := cx, y := node.y, id := .top },
      right := { x := node.x + node.width, y := cy, id := .right },
      bottom := { x := cx, y := node.y + node.height, id := .bottom },
      left := { x := node.x, y := cy, id := .left } }

/-- The function `getHandlePosition(node, handleId)`: the entry `handles[handleId]`. -/
def getHandlePosition (node : Node K) (handleId : HandleId) : Handle K :=
  let handles := getNodeHandles node
  match handleId with
  | .top => handles.top
  | .right => handles.right
  | .bottom => handles.bottom
  | .left => handles.left

/-- A finite point seen as a point of JavaScript numbers. -/
def Point.toJs (p : Point K) : Point (JsNum K) :=
  { x := .fin p.x, y := .fin p.y }

/-- The function `getNodeEdgePoint(node, targetPoint)`. -/
def getNodeEdgePoint (sqrt : K → K) (node : Node K) (targetPoint : Point K) :
    Point (JsNum K) :=
  let center := getNodeCenter node
  let dx := targetPoint.x - center.x
  let dy := targetPoint.y - center.y
  if node.type = "circle" then
    let radius := min node.width node.height / 2
    let distance := sqrt (dx * dx + dy * dy)
    { x := .fin center.x + (.fin dx / .fin distance) * .fin radius,
      y := .fin center.y + (.fin dy / .fin distance) * .fin radius }
  else if node.type = "diamond" then
    let halfW := node.width / 2
    let halfH := node.height / 2
    let slope : JsNum K := JsNum.abs (JsNum.fin dy / JsNum.fin dx)
    let ratio : JsNum K := .fin halfH / .fin halfW
    if JsNum.le slope ratio then
      let edgeY : JsNum K := .fin center.y + .fin (if dx > 0 then 1 else -1) * .fin halfH * slope
      { x := .fin (center.x + (if dx > 0 then halfW else -halfW)), y := edgeY }
    else
      let edgeX : JsNum K := .fin center.x + .fin (if dy > 0 then 1 else -1) * .fin halfW / slope
      { x := edgeX, y := .fin (center.y + (if dy > 0 then halfH else -halfH)) }
  else
    let halfW := node.width / 2
    let halfH := node.height / 2
    if JsNum.gt (JsNum.fin |dx| / JsNum.fin halfW) (JsNum.fin |dy| / JsNum.fin halfH) then
      { x := .fin (center.x + (if dx > 0 then halfW else -halfW)),
        y := .fin center.y + .fin dy * (.fin halfW / .fin |dx|) }
    else
      { x := .fin center.x + .fin dx * (.fin halfH / .fin |dy|),
        y := .fin (center.y + (if dy > 0 then halfH else -halfH)) }

/-! ## Connection routing -/

/-- The value of a path attribute: the empty string, the segment
`M p L q`, or the closed triangle `M p L q L r Z`. -/
inductive SvgPath (α : Type) where
  | empty
  | segment (p q : Point α)
  | triangle (p q r : Point α)
  deriving DecidableEq

/-- The function `getConnectionPath(from, to, connection)` over the node list `nodes`. -/
def getConnectionPath (sqrt : K → K) (nodes : List (Node K)) (from_ to_ : String)
    (connection : Option (Connection K)) : SvgPath (JsNum K) :=
  match nodes.find? (fun n => n.id = from_), nodes.find? (fun n => n.id = to_) with
  | some fromNode, some toNode =>
    match connection.bind (fun c => c.fromHandle), connection.bind (fun c => c.toHandle) with
    | some fromHandle, some toHandle =>
      let fromPoint := getHandlePosition fromNode fromHandle
      let toPoint := getHandlePosition toNode toHandle
      .segment ⟨.fin fromPoint.x, .fin fromPoint.y⟩ ⟨.fin toPoint.x, .fin toPoint.y⟩
    | _, _ =>
      let fromCenter := getNodeCenter fromNode
      let toCenter := getNodeCenter toNode
      let fromPoint := getNodeEdgePoint sqrt fromNode toCenter
      let toPoint := getNodeEdgePoint sqrt toNode fromCenter
      .segment fromPoint toPoint
  | _, _ => .empty

/-- The function `getArrowPath(connection)` over the node list `nodes`. -/
def getArrowPath (sqrt : K → K) (nodes : List (Node K)) (connection : Connection K) :
    SvgPath (JsNum K) :=
  match nodes.find? (fun n => n.id = connection.from_),
      nodes.find? (fun n => n.id = connection.to_) with
  | some fromNode, some toNode =>
    let toPoint : Point (JsNum K) :=
      match connection.toHandle with
      | some h => ⟨.fin (getHandlePosition toNode h).x, .fin (getHandlePosition toNode h).y⟩
      | none => getNodeEdgePoint sqrt toNode (getNodeCenter fromNode)
    let fromPoint : Point (JsNum K) :=
      match connection.fromHandle with
      | some h => ⟨.fin (getHandlePosition fromNode h).x, .fin (getHandlePosition fromNode h).y⟩
      | none => getNodeEdgePoint sqrt fromNode (getNodeCenter toNode)
    let dx := fromPoint.x - toPoint.x
    let dy := fromPoint.y - toPoint.y
    let distance := JsNum.sqrt sqrt (dx * dx + dy * dy)
    if distance = .fin 0 then .empty
    else
      let unitX := dx / distance
      let unitY := dy / distance
      let arrowSize : JsNum K := .fin connection.arrowSize
      let half : JsNum K := .fin (1 / 2)
      let point1 : Point (JsNum K) :=
        { x := toPoint.x + unitX * arrowSize - unitY * arrowSize * half,
          y := toPoint.y + unitY * arrowSize + unitX * arrowSize * half }
      let point2 : Point (JsNum K) :=
        { x := toPoint.x + unitX * arrowSize + unitY * arrowSize * half,
          y := toPoint.y + unitY * arrowSize - unitX * arrowSize * half }
      .triangle toPoint point1 point2
  | _, _ => .empty

/-! ## Handle snapping -/

/-- The list `Object.values(handles)`: the handles in insertion order. -/
def Handles.values (handles : Handles K) : List (Handle K) :=
  [handles.top, handles.right, handles.bottom, handles.left]

/-- The object `{ nodeId, handleId, ...handle }` that `findNearestHandle`
returns. -/
structure NearestHandle (K : Type) where
  nodeId : String
  handleId : HandleId
  x : K
  y : K
  id : HandleId
  deriving DecidableEq

/-- The function `findNearestHandle(x, y, excludeNodeId)` over the node list `nodes`; the
pair threaded through the two loops is `(nearest, minDistance)`. -/
def findNearestHandle (sqrt : K → K) (nodes : List (Node K)) (x y : K)
    (excludeNodeId : Option String) : Option (NearestHandle K) :=
  let snapDistance : K := 20
  (nodes.foldl (fun acc node =>
    if some node.id = excludeNodeId then acc
    else
      let handles := getNodeHandles node
      handles.values.foldl (fun acc handle =>
        let distance := sqrt ((handle.x - x) ^ 2 + (handle.y - y) ^ 2)
        if distance < acc.2 then
          (some { nodeId := node.id, handleId := handle.id,
                  x := handle.x, y := handle.y, id := handle.id }, distance)
        else acc) acc)
    ((none : Option (NearestHandle K)), snapDistance)).1

/-! ## Viewport -/

/-- The function `screenToSvg(clientX, clientY)`; `svg` is `svgRef.current`,
absent while the canvas is not mounted. -/
def screenToSvg (svg : Option (Bounds K)) (viewBox : ViewBox K) (clientX clientY : K) :
    Point K :=
  match svg with
  | none => { x := 0, y := 0 }
  | some rect =>
    { x := (clientX - rect.left) * (viewBox.width / rect.width) + viewBox.x,
      y := (clientY - rect.top) * (viewBox.height / rect.height) + viewBox.y }

/-- The handler `handleWheel(e)` on the mounted canvas of bounds `rect` (the
unused local `scale` is left out). -/
def handleWheel (rect : Bounds K) (s : State K) (e : MouseEvent K) : State K :=
  let mouseX := e.clientX - rect.left
  let mouseY := e.clientY - rect.top
  let svgX := mouseX * (s.viewBox.width / rect.width) + s.viewBox.x
  let svgY := mouseY * (s.viewBox.height / rect.height) + s.viewBox.y
  let delta : K := if e.deltaY > 0 then 11 / 10 else 9 / 10
  let newZoom := JsNum.min (JsNum.max (s.zoom * .fin delta) (.fin (1 / 10))) (.fin 5)
  let newWidth := s.viewBox.width * delta
  let newHeight := s.viewBox.height * delta
  let newX := svgX - mouseX * (newWidth / rect.width)
  let newY := svgY - mouseY * (newHeight / rect.height)
  { s with
    viewBox := { x := newX, y := newY, width := newWidth, height := newHeight }
    zoom := newZoom }

/-- The value `Math.min(a, ...rest)` of a non-empty argument list. -/
def mathMin (a : K) (rest : List K) : K := rest.foldl (fun m v => if m ≤ v then m else v) a

/-- The value `Math.max(a, ...rest)` of a non-empty argument list. -/
def mathMax (a : K) (rest : List K) : K := rest.foldl (fun m v => if m ≤ v then v else m) a

/-- The operation `fitToCanvas()` on the mounted canvas of bounds `rect`. -/
def fitToCanvas (rect : Bounds K) (s : State K) : State K :=
  match s.nodes with
  | [] => s
  | n :: ns =>
    let padding : K := 50
    let minX := mathMin n.x (ns.map (fun n => n.x)) - padding
    let minY := mathMin n.y (ns.map (fun n => n.y)) - padding
    let maxX := mathMax (n.x + n.width) (ns.map (fun n => n.x + n.width)) + padding
    let maxY := mathMax (n.y + n.height) (ns.map (fun n => n.y + n.height)) + padding
    let contentWidth := maxX - minX
    let contentHeight := maxY - minY
    let scaleX : JsNum K := .fin rect.width / .fin contentWidth
    let scaleY : JsNum K := .fin rect.height / .fin contentHeight
    let newZoom := JsNum.min (JsNum.min scaleX scaleY) (.fin 1)
    { s with
      viewBox := { x := minX, y := minY, width := contentWidth, height := contentHeight }
      zoom := newZoom }

/-- The operation `resetView()`. -/
def resetView (s : State K) : State K :=
  { s with viewBox := { x := 0, y := 0, width := 1200, height := 800 }, zoom := .fin 1 }

/-! ## Creating and updating nodes -/

/-- An entry `{ shape, defaultWidth, defaultHeight }` of `nodeTypes`. -/
structure NodeType (K : Type) where
  shape : String
  defaultWidth : K
  defaultHeight : K

/-- The table `nodeTypes`, read as `nodeTypes[type]`; `none` is `undefined`
(the keys inherited from `Object.prototype` are not modelled). -/
def nodeTypes (type : String) : Option (NodeType K) :=
  if type = "rectangle" then some { shape := "rect", defaultWidth := 120, defaultHeight := 60 }
  else if type = "circle" then
    some { shape := "ellipse", defaultWidth := 100, defaultHeight := 100 }
  else if type = "diamond" then
    some { shape := "polygon", defaultWidth := 120, defaultHeight := 80 }
  else none

/-- The operation `createNode(type, x, y)`, without the deferred start of the
text edit; `none` is the `TypeError` of reading `defaultWidth` of `undefined`,
thrown before any state is set. -/
def createNode (s : State K) (type : String) (x y : K) : Option (State K) :=
  match nodeTypes (K := K) type with
  | none => none
  | some nodeType =>
    let newNode : Node K :=
      { id := "node-" ++ toString s.nodeIdCounter,
        type := type,
        x := x - nodeType.defaultWidth / 2,
        y := y - nodeType.defaultHeight / 2,
        width := nodeType.defaultWidth,
        height := nodeType.defaultHeight,
        text := "",
        color := "#3b82f6",
        textColor := "#ffffff",
        borderColor := "#1e40af",
        borderWidth := 2 }
    some { s with nodes := s.nodes ++ [newNode], nodeIdCounter := s.nodeIdCounter + 1 }

/-- The object `updates` of `updateNode`: the fields its callers set, each
present or absent. -/
structure NodeUpdates (K : Type) where
  type : Option String := none
  x : Option K := none
  y : Option K := none
  width : Option K := none
  height : Option K := none
  text : Option String := none
  color : Option String := none
  textColor : Option String := none
  borderColor : Option String := none

/-- The object `{ ...node, ...updates }`. -/
def Node.update (node : Node K) (updates : NodeUpdates K) : Node K :=
  { node with
    type := updates.type.getD node.type
    x := updates.x.getD node.x
    y := updates.y.getD node.y
    width := updates.width.getD node.width
    height := updates.height.getD node.height
    text := updates.text.getD node.text
    color := updates.color.getD node.color
    textColor := updates.textColor.getD node.textColor
    borderColor := updates.borderColor.getD node.borderColor }

/-- The operation `updateNode(id, updates)`. -/
def updateNode (s : State K) (id : String) (updates : NodeUpdates K) : State K :=
  { s with nodes := s.nodes.map (fun node => if node.id = id then node.update updates else node) }

/-- The value `parseInt(e.target.value) || fallback` of a size input, given
the result of `parseInt` (`none` is `NaN`). -/
def sizeInput (parsed : Option ℤ) (fallback : K) : K :=
  match parsed with
  | some n => if n = 0 then fallback else (n : K)
  | none => fallback

/-- The change handler of the width input of the property panel, on the
selected node `id`. -/
def editWidth (s : State K) (id : String) (parsed : Option ℤ) : State K :=
  updateNode s id { width := some (sizeInput parsed 50) }

/-- The change handler of the height input of the property panel, on the
selected node `id`. -/
def editHeight (s : State K) (id : String) (parsed : Option ℤ) : State K :=
  updateNode s id { height := some (sizeInput parsed 30) }

/-- The operation `newFlowchart()`. -/
def newFlowchart (s : State K) : State K :=
  resetView
    { s with
      nodes := [], connections := [], selectedNode := none,
      currentFlowchartId := none, flowchartName := "Untitled Flowchart" }

/-! ## Import and export -/

/-- A JSON value, as `JSON.parse` returns it and `JSON.stringify` writes it
(numbers are finite). -/
inductive JsVal (K : Type) where
  | null
  | bool (b : Bool)
  | num (v : K)
  | str (s : String)
  | arr (items : List (JsVal K))
  | obj (fields : List (String × JsVal K))

/-- The truth value of a JSON value in a condition. -/
def JsVal.truthy : JsVal K → Bool
  | .null => false
  | .bool b => b
  | .num v => v ≠ 0
  | .str s => s ≠ ""
  | .arr _ => true
  | .obj _ => true

/-- The property read `v[key]` for the keys `data`, `nodes`, `connections` and
`name`; `none` is `undefined`.  On `null` the read throws, which the caller
handles before it reads. -/
def JsVal.get (v : JsVal K) (key : String) : Option (JsVal K) :=
  match v with
  | .obj fields => fields.lookup key
  | _ => none

/-- The value `v || fallback` of a property read. -/
def JsVal.orElse (v : Option (JsVal K)) (fallback : JsVal K) : JsVal K :=
  match v with
  | some w => if w.truthy then w else fallback
  | none => fallback

/-- The state cells that the import handler sets, as JavaScript values. -/
structure ImportCells (K : Type) where
  nodes : JsVal K
  connections : JsVal K
  flowchartName : JsVal K
  currentFlowchartId : Option String

/-- The body of the `onload` handler of `importFlowchart` on the parsed
payload `importData`: the cells afterwards and whether the format error was
shown. -/
def importFlowchart (cells : ImportCells K) (importData : JsVal K) : ImportCells K × Bool :=
  match importData with
  | .null => (cells, true)
  | _ =>
    match importData.get "data" with
    | none => (cells, true)
    | some data =>
      if data.truthy then
        match data.get "nodes" with
        | none => (cells, true)
        | some nodes =>
          if nodes.truthy then
            ({ nodes := nodes,
               connections := JsVal.orElse (data.get "connections") (.arr []),
               flowchartName := JsVal.orElse (importData.get "name") (.str "Imported Flowchart"),
               currentFlowchartId := none }, false)
          else (cells, true)
      else (cells, true)

/-- The object `exportData` that `exportFlowchart` writes with
`JSON.stringify`; `exportedAt` is `new Date().toISOString()`.  Reading the
text back with `JSON.parse` gives the same JSON value. -/
def exportFlowchart (cells : ImportCells K) (exportedAt : String) : JsVal K :=
  .obj [("name", cells.flowchartName),
        ("data", .obj [("nodes", cells.nodes), ("connections", cells.connections)]),
        ("exported_at", .str exportedAt)]

/-- The string of a handle key. -/
def HandleId.toString : HandleId → String
  | .top => "top"
  | .right => "right"
  | .bottom => "bottom"
  | .left => "left"

/-- A handle field of a connection as a JSON value: the key or `null`. -/
def handleToJs (h : Option HandleId) : JsVal K :=
  match h with
  | some k => .str k.toString
  | none => .null

/-- A node object as a JSON value. -/
def Node.toJs (n : Node K) : JsVal K :=
  .obj [("id", .str n.id), ("type", .str n.type), ("x", .num n.x), ("y", .num n.y),
        ("width", .num n.width), ("height", .num n.height), ("text", .str n.text),
        ("color", .str n.color), ("textColor", .str n.textColor),
        ("borderColor", .str n.borderColor), ("borderWidth", .num n.borderWidth)]

/-- A connection object as a JSON value. -/
def Connection.toJs (c : Connection K) : JsVal K :=
  .obj [("id", .str c.id), ("from", .str c.from_), ("to", .str c.to_),
        ("fromHandle", handleToJs c.fromHandle), ("toHandle", handleToJs c.toHandle),
        ("color", .str c.color), ("width", .num c.width), ("arrowSize", .num c.arrowSize)]

/-- The cells of a state that export reads and import sets. -/
def State.importCells (s : State K) : ImportCells K :=
  { nodes := .arr (s.nodes.map Node.toJs),
    connections := .arr (s.connections.map Connection.toJs),
    flowchartName := .str s.flowchartName,
    currentFlowchartId := s.currentFlowchartId }

/-- A well-formed import payload: a name (possibly absent), an array of node
objects and an array of connection objects (possibly absent). -/
structure FlowchartDocument (K : Type) where
  name : Option String
  nodes : List (Node K)
  connections : Option (List (Connection K))

/-- The JSON value of a well-formed import payload. -/
def FlowchartDocument.toJs (d : FlowchartDocument K) : JsVal K :=
  .obj ((match d.name with
      | some name => [("name", JsVal.str name)]
      | none => []) ++
    [("data", .obj ([("nodes", JsVal.arr (d.nodes.map Node.toJs))] ++
      (match d.connections with
        | some cs => [("connections", JsVal.arr (cs.map Connection.toJs))]
        | none => [])))])

/-- The four setter calls of the import handler on a well-formed payload. -/
def importDocument (s : State K) (d : FlowchartDocument K) : State K :=
  { s with
    nodes := d.nodes
    connections := d.connections.getD []
    flowchartName :=
      match d.name with
      | some name => if name = "" then "Imported Flowchart" else name
      | none => "Imported Flowchart"
    currentFlowchartId := none }

/-! ## Pointer handlers -/

/-- The truth value of a state cell that holds a string or `null`. -/
def truthyStr (v : Option String) : Bool :=
  match v with
  | some t => t ≠ ""
  | none => false

/-- The operation `finishTextEdit()`. -/
def finishTextEdit (s : State K) : State K :=
  match s.editingNode with
  | some id =>
    if id ≠ "" then
      { updateNode s id { text := some s.editingText } with
        editingNode := none, editingText := "" }
    else s
  | none => s

/-- The operation `startTextEdit(node)`. -/
def startTextEdit (s : State K) (node : Node K) : State K :=
  { s with editingNode := some node.id, editingText := node.text }

/-- The handler `handleMouseDown(e, node)` of a node body, without the
deferred `startTextEdit` of a double click; `svg` is `svgRef.current`. -/
def handleMouseDown (svg : Option (Bounds K)) (s : State K) (e : MouseEvent K)
    (node : Node K) : State K :=
  if e.detail = 2 then
    if truthyStr s.editingNode ∧ s.editingNode ≠ some node.id then finishTextEdit s else s
  else
    let svgPoint := screenToSvg svg s.viewBox e.clientX e.clientY
    { s with
      selectedNode := some node
      isDragging := true
      dragOffset := { x := svgPoint.x - node.x, y := svgPoint.y - node.y } }

/-- The handler `handleHandleMouseDown(e, node, handleId)` of a connection
handle. -/
def handleHandleMouseDown (s : State K) (node : Node K) (handleId : HandleId) : State K :=
  { s with
    isConnecting := true
    connectionStart := some node.id
    connectionStartHandle := some handleId }

/-- The handler `handleSvgMouseDown(e)` of the canvas. -/
def handleSvgMouseDown (s : State K) (e : MouseEvent K) : State K :=
  if e.targetIsSvg then
    let s1 := if truthyStr s.editingNode then finishTextEdit s else s
    let s2 : State K :=
      { s1 with
        selectedNode := none
        isConnecting := false
        connectionStart := none
        connectionStartHandle := none }
    if e.ctrlKey || e.metaKey then
      { s2 with isPanning := true, lastMousePos := { x := e.clientX, y := e.clientY } }
    else s2
  else s

/-- The handler `handleToolbarMouseDown(e, type)` of a palette entry. -/
def handleToolbarMouseDown (s : State K) (e : MouseEvent K) (type : String) : State K :=
  { s with
    isDraggingFromToolbar := true
    toolbarDragType := some type
    dragPreview := some { x := e.clientX, y := e.clientY, type := type } }

/-- The handler `handleMouseMove(e)` of the document; `svg` is
`svgRef.current`. -/
def handleMouseMove (svg : Option (Bounds K)) (s : State K) (e : MouseEvent K) : State K :=
  match svg with
  | none => s
  | some rect =>
    let svgPoint := screenToSvg (some rect) s.viewBox e.clientX e.clientY
    let s1 : State K := { s with currentMousePos := svgPoint }
    if s.isDraggingFromToolbar ∧ truthyStr s.toolbarDragType then
      match s.toolbarDragType with
      | some type => { s1 with dragPreview := some { x := e.clientX, y := e.clientY, type := type } }
      | none => s1
    else
      match s.isDragging, s.selectedNode with
      | true, some selected =>
        updateNode s1 selected.id
          { x := some (svgPoint.x - s.dragOffset.x), y := some (svgPoint.y - s.dragOffset.y) }
      | _, _ =>
        if s.isPanning then
          let deltaX := (e.clientX - s.lastMousePos.x) * (s.viewBox.width / rect.width)
          let deltaY := (e.clientY - s.lastMousePos.y) * (s.viewBox.height / rect.height)
          { s1 with
            viewBox := { s.viewBox with x := s.viewBox.x - deltaX, y := s.viewBox.y - deltaY }
            lastMousePos := { x := e.clientX, y := e.clientY } }
        else s1

/-- The setter calls that end `handleMouseUp`. -/
def clearGestures (s : State K) : State K :=
  { s with
    isDragging := false
    isPanning := false
    isDraggingFromToolbar := false
    toolbarDragType := none
    dragPreview := none }

/-- The handler `handleMouseUp(e)` of the document; `svg` is `svgRef.current`,
`now` the value of `Date.now()`.  The result `none` is the `TypeError` of
`createNode`, thrown before any state is set. -/
def handleMouseUp (sqrt : K → K) (now : Nat) (svg : Option (Bounds K)) (s : State K)
    (e : MouseEvent K) : Option (State K) :=
  if s.isDraggingFromToolbar ∧ truthyStr s.toolbarDragType ∧ svg.isSome then
    let svgPoint := screenToSvg svg s.viewBox e.clientX e.clientY
    if e.targetIsSvg ∨ e.targetInSvg then
      (createNode s (s.toolbarDragType.getD "") svgPoint.x svgPoint.y).map clearGestures
    else some (clearGestures s)
  else if s.isConnecting ∧ truthyStr s.connectionStart then
    let start := s.connectionStart.getD ""
    let s1 :=
      match findNearestHandle sqrt s.nodes s.currentMousePos.x s.currentMousePos.y
          s.connectionStart with
      | some nearest =>
        createConnection s now start nearest.nodeId s.connectionStartHandle
          (some nearest.handleId)
      | none => s
    some (clearGestures
      { s1 with isConnecting := false, connectionStart := none, connectionStartHandle := none })
  else some (clearGestures s)

/-! ## Sequences of pointer events -/

/-- A pointer press: on a node body, on a connection handle, on the canvas, or
on a palette entry. -/
inductive Press (K : Type) where
  | nodeBody (e : MouseEvent K) (node : Node K)
  | handle (node : Node K) (handleId : HandleId)
  | canvas (e : MouseEvent K)
  | palette (e : MouseEvent K) (type : String)

/-- The handler that a press runs. -/
def pressStep (svg : Option (Bounds K)) (s : State K) : Press K → State K
  | .nodeBody e node => handleMouseDown svg s e node
  | .handle node handleId => handleHandleMouseDown s node handleId
  | .canvas e => handleSvgMouseDown s e
  | .palette e type => handleToolbarMouseDown s e type

/-- The presses the page offers in the state `s`: the bodies and handles of
the nodes of the scene, the canvas, and the three palette entries. -/
def Press.possible (s : State K) : Press K → Prop
  | .nodeBody _ node => node ∈ s.nodes
  | .handle node _ => node ∈ s.nodes
  | .canvas _ => True
  | .palette _ type => type = "rectangle" ∨ type = "circle" ∨ type = "diamond"

/-- The states reached from the initial state by any sequence of presses,
moves and releases. -/
inductive PointerReach (sqrt : K → K) : State K → Prop where
  | initial : PointerReach sqrt State.initial
  | press {s : State K} (svg : Option (Bounds K)) (p : Press K) :
      PointerReach sqrt s → p.possible s → PointerReach sqrt (pressStep svg s p)
  | move {s : State K} (svg : Option (Bounds K)) (e : MouseEvent K) :
      PointerReach sqrt s → PointerReach sqrt (handleMouseMove svg s e)
  | release {s t : State K} (now : Nat) (svg : Option (Bounds K)) (e : MouseEvent K) :
      PointerReach sqrt s → handleMouseUp sqrt now svg s e = some t → PointerReach sqrt t

/-- The states reached from the initial state by the sequences in which a
press comes only while no button is held: every press is followed by a release
before the next press.  The flag tells whether a button is held. -/
inductive AlternatingReach (sqrt : K → K) : Bool → State K → Prop where
  | initial : AlternatingReach sqrt false State.initial
  | press {s : State K} (svg : Option (Bounds K)) (p : Press K) :
      AlternatingReach sqrt false s → p.possible s →
      AlternatingReach sqrt true (pressStep svg s p)
  | move {held : Bool} {s : State K} (svg : Option (Bounds K)) (e : MouseEvent K) :
      AlternatingReach sqrt held s → AlternatingReach sqrt held (handleMouseMove svg s e)
  | release {held : Bool} {s t : State K} (now : Nat) (svg : Option (Bounds K))
      (e : MouseEvent K) :
      AlternatingReach sqrt held s → handleMouseUp sqrt now svg s e = some t →
      AlternatingReach sqrt false t

/-- At most one of the four gesture flags is set. -/
def atMostOneGesture (s : State K) : Prop :=
  [s.isDragging, s.isConnecting, s.isPanning, s.isDraggingFromToolbar].count true ≤ 1

/-- The part of the state that the gesture flags depend on: the four flags,
the start of the connection, the palette type and the ids of the nodes. -/
def gestureView (s : State K) :
    Bool × Bool × Bool × Bool × Option String × Option String × List String :=
  (s.isDragging, s.isConnecting, s.isPanning, s.isDraggingFromToolbar,
    s.connectionStart, s.toolbarDragType, s.nodes.map (fun n => n.id))

/-- The invariant of the alternating sequences: node ids are not empty, the
palette type is one of the three node types, a connection gesture has a
non-empty start, no flag is set while no button is held, and at most one flag
is set. -/
def GestureInv (held : Bool) (s : State K) : Prop :=
  (∀ id ∈ s.nodes.map (fun n => n.id), id ≠ "") ∧
  (∀ type, s.toolbarDragType = some type →
    type = "rectangle" ∨ type = "circle" ∨ type = "diamond") ∧
  (s.isConnecting = true → truthyStr s.connectionStart = true) ∧
  (held = false → s.isDragging = false ∧ s.isConnecting = false ∧ s.isPanning = false ∧
    s.isDraggingFromToolbar = false) ∧
  atMostOneGesture s

/-! ## Text editing -/

/-- The callback that `createNode` defers by 50 ms, for a call made in the
state `s0` (the callback holds the id of the node made there); it runs in the
later state `s`. -/
def createNodeDeferred (s0 s : State K) : State K :=
  { s with editingNode := some ("node-" ++ toString s0.nodeIdCounter), editingText := "" }

/-- The handler `handleTextEditKeyDown(e)` of the text input; `key` is
`e.key`.  The blur handler of the input is `finishTextEdit` itself. -/
def handleTextEditKeyDown (s : State K) (key : String) : State K :=
  if key = "Enter" then finishTextEdit s
  else if key = "Escape" then { s with editingNode := none, editingText := "" }
  else s

/-! ## Predicates of the specification -/

/-- Two connections join the same unordered pair of nodes. -/
def samePair (a b : Connection K) : Prop :=
  (a.from_ = b.from_ ∧ a.to_ = b.to_) ∨ (a.from_ = b.to_ ∧ a.to_ = b.from_)

/-- The point `p` lies on the perimeter of the bounding box
`[x, x + width] × [y, y + height]` of `node`. -/
def onBoxPerimeter (node : Node K) (p : Point K) : Prop :=
  node.x ≤ p.x ∧ p.x ≤ node.x + node.width ∧
  node.y ≤ p.y ∧ p.y ≤ node.y + node.height ∧
  (p.x = node.x ∨ p.x = node.x + node.width ∨ p.y = node.y ∨ p.y = node.y + node.height)

/-- The Euclidean distance from the handle `h` to `(x, y)`. -/
def handleDistance (sqrt : K → K) (x y : K) (h : Handle K) : K :=
  sqrt ((h.x - x) ^ 2 + (h.y - y) ^ 2)

/-- The handles open to snapping, in scan order (nodes in list order, each
with its handles top, right, bottom, left), paired with the id of their node;
the nodes whose id is the excluded one are skipped. -/
def eligibleHandles (nodes : List (Node K)) (excludeNodeId : Option String) :
    List (String × Handle K) :=
  (nodes.filter (fun n => some n.id ≠ excludeNodeId)).flatMap (fun n =>
    [(n.id, (getNodeHandles n).top), (n.id, (getNodeHandles n).right),
     (n.id, (getNodeHandles n).bottom), (n.id, (getNodeHandles n).left)])

/-- The answer `{ nodeId, handleId, ...handle }` built from an eligible
handle. -/
def nearestOf (e : String × Handle K) : NearestHandle K :=
  { nodeId := e.1, handleId := e.2.id, x := e.2.x, y := e.2.y, id := e.2.id }

/-- One step of the scan of `findNearestHandle` on the pair
`(nearest, minDistance)`. -/
def snapStep (sqrt : K → K) (x y : K) (acc : Option (NearestHandle K) × K)
    (e : String × Handle K) : Option (NearestHandle K) × K :=
  if handleDistance sqrt x y e.2 < acc.2 then
    (some (nearestOf e), handleDistance sqrt x y e.2)
  else acc

end Ops

/-! ## A square root for concrete evaluation -/

/-- The function `Math.sqrt` on the rationals, exact on those whose numerator and
denominator are perfect squares (integer square roots otherwise). -/
def ratSqrt (q : ℚ) : ℚ := (Nat.sqrt q.num.toNat : ℚ) / (Nat.sqrt q.den : ℚ)

/-! ## Example nodes -/

/-- A node with the styling `createNode` gives, of the given type, top-left
corner and size. -/
def mkNode (id type : String) (x y width height : ℚ) : Node ℚ :=
  { id := id, type := type, x := x, y := y, width := width, height := height,
    text := "", color := "#3b82f6", textColor := "#ffffff",
    borderColor := "#1e40af", borderWidth := 2 }

/-- A rectangle of the default size 120 × 60 at the origin. -/
def rectNode : Node ℚ := mkNode "node-1" "rectangle" 0 0 120 60

/-- A diamond of the default size 120 × 80 at the origin. -/
def diamondNode : Node ℚ := mkNode "node-2" "diamond" 0 0 120 80

/-- The circle `A` of the routing scenario: 100 × 100 at `(0, 0)`. -/
def circleA : Node ℚ := mkNode "node-3" "circle" 0 0 100 100

/-- The circle `B` of the routing scenario: 100 × 100 at `(300, 0)`. -/
def circleB : Node ℚ := mkNode "node-4" "circle" 300 0 100 100

/-- A document holding the one node `rectNode`, whose id is `node-1`. -/
def oneNodeDocument : FlowchartDocument ℚ :=
  { name := none, nodes := [rectNode], connections := none }

/-- A payload whose `data.nodes` is the string `abc`. -/
def stringNodesPayload : JsVal ℚ :=
  .obj [("data", .obj [("nodes", .str "abc")])]

/-- The rectangle 120 × 60 at `(284, 0)`. -/
def rectNodeB : Node ℚ := mkNode "node-5" "rectangle" 284 0 120 60

/-- A connection from `rectNode` to `rectNodeB` that names the handle of its
destination only. -/
def mixedConnection : Connection ℚ :=
  { id := "conn-1", from_ := "node-1", to_ := "node-5", fromHandle := none,
    toHandle := some .top, color := "#374151", width := 2, arrowSize := 8 }

/-! ## Example canvas and events -/

/-- A canvas of 1200 × 800 pixels at the origin of the screen. -/
def canvasBounds : Bounds ℚ :=
  { left := 0, top := 0, width := 1200, height := 800,
    width_pos := by norm_num, height_pos := by norm_num }

/-- A mouse event at the screen point `(x, y)` with the wheel delta `deltaY`,
on the canvas background, no modifier key. -/
def mkEvent (x y deltaY : ℚ) : MouseEvent ℚ :=
  { clientX := x, clientY := y, deltaY := deltaY, detail := 1,
    ctrlKey := false, metaKey := false, targetIsSvg := true, targetInSvg := true }

/-- A mouse event at the screen point `(x, y)` on the canvas background with
the control key held. -/
def mkCtrlEvent (x y : ℚ) : MouseEvent ℚ :=
  { clientX := x, clientY := y, deltaY := 0, detail := 1,
    ctrlKey := true, metaKey := false, targetIsSvg := true, targetInSvg := true }

/-- A mouse event at the screen point `(x, y)` outside the canvas. -/
def mkEventOutside (x y : ℚ) : MouseEvent ℚ :=
  { clientX := x, clientY := y, deltaY := 0, detail := 1,
    ctrlKey := false, metaKey := false, targetIsSvg := false, targetInSvg := false }

/-- A state with the one node `rectNode` in which a press on a handle of the
node was followed, without a release, by a press on the rectangle entry of the
palette. -/
def twoGesturesState : State ℚ :=
  handleToolbarMouseDown
    (handleHandleMouseDown { (State.initial : State ℚ) with nodes := [rectNode] } rectNode .right)
    (mkEventOutside 10 10) "rectangle"

/-- The state after a press on the canvas background with the control key
held, from the initial state: a pan is under way from `(300, 300)`. -/
def panningState : State ℚ := handleSvgMouseDown State.initial (mkCtrlEvent 300 300)

/-- A state with the nodes `rectNode` and `circleA` and a text edit open on
`rectNode` with the buffer `Start`. -/
def editingState : State ℚ :=
  { startTextEdit { (State.initial : State ℚ) with nodes := [rectNode, circleA] } rectNode with
    editingText := "Start" }

/-- The state after a press on the rectangle entry of the palette followed,
without a release, by a press on the canvas background with the control key
held at `(300, 300)`: a palette drag and a pan are both under way. -/
def paletteThenPanState : State ℚ :=
  pressStep (some canvasBounds)
    (pressStep (some canvasBounds) State.initial (.palette (mkEventOutside 10 10) "rectangle"))
    (.canvas (mkCtrlEvent 300 300))

/-- The state after importing `oneNodeDocument` into the initial state and
creating a rectangle at `(0, 0)`: both nodes have the id `node-1`. -/
def duplicateIdState : State ℚ :=
  (createNode (importDocument State.initial oneNodeDocument) "rectangle" 0 0).getD State.initial

/-- The state `duplicateIdState` once the callback of `createNode` has opened
the text edit on the new node and the buffer holds `New`. -/
def duplicateIdEditState : State ℚ :=
  { createNodeDeferred (importDocument State.initial oneNodeDocument) duplicateIdState with
    editingText := "New" }

end Flowchart

namespace Flowchart

/-! ## Arithmetic of JavaScript numbers -/

namespace JsNum

variable {K : Type} [LinearOrderedField K]

@[simp] theorem fin_add_fin (a b : K) : (fin a + fin b : JsNum K) = fin (a + b) := rfl

@[simp] theorem fin_mul_fin (a b : K) : (fin a * fin b : JsNum K) = fin (a * b) := rfl

@[simp] theorem fin_sub_fin (a b : K) : (fin a - fin b : JsNum K) = fin (a - b) := by
  show add (fin a) (neg (fin b)) = fin (a - b)
  simp [add, neg, sub_eq_add_neg]

theorem fin_div_fin (a b : K) :
    (fin a / fin b : JsNum K) =
      if b = 0 then (if a = 0 then nan else if 0 < a then posInf else negInf)
      else fin (a / b) := rfl

@[simp] theorem fin_div_fin_of_ne (a : K) {b : K} (hb : b ≠ 0) :
    (fin a / fin b : JsNum K) = fin (a / b) := by
  rw [fin_div_fin, if_neg hb]

@[simp] theorem zero_div_zero : (fin 0 / fin 0 : JsNum K) = nan := by
  simp [fin_div_fin]

@[simp] theorem nan_add (a : JsNum K) : (nan + a : JsNum K) = nan := rfl

@[simp] theorem add_nan (a : JsNum K) : (a + nan : JsNum K) = nan := by
  cases a <;> rfl

@[simp] theorem nan_mul (a : JsNum K) : (nan * a : JsNum K) = nan := rfl

@[simp] theorem mul_nan (a : JsNum K) : (a * nan : JsNum K) = nan := by
  cases a <;> rfl

@[simp] theorem nan_div (a : JsNum K) : (nan / a : JsNum K) = nan := rfl

@[simp] theorem div_nan (a : JsNum K) : (a / nan : JsNum K) = nan := by
  cases a <;> rfl

@[simp] theorem zero_mul_posInf : (fin 0 * posInf : JsNum K) = nan := by
  show mul (fin 0) posInf = nan
  simp [mul]

@[simp] theorem fin_div_posInf (a : K) : (fin a / posInf : JsNum K) = fin 0 := rfl

@[simp] theorem abs_fin (a : K) : abs (fin a : JsNum K) = fin |a| := rfl

@[simp] theorem le_fin_fin (a b : K) : le (fin a) (fin b) = decide (a ≤ b) := rfl

@[simp] theorem gt_fin_fin (a b : K) : gt (fin a) (fin b) = decide (b < a) := rfl

end JsNum

section Scene

variable {K : Type} [LinearOrderedField K]

/-! ## Deleting a node -/

/-- C1: `deleteNode(id)` leaves no node with that id and no connection whose
`from` or `to` is that id; the nodes and connections that remain are the other
ones, unchanged, in their order and with their multiplicity; and when every
connection had both endpoints among the nodes before the call, every remaining
connection has both endpoints among the remaining nodes. -/
theorem deleteNode_cascade (s : State K) (id : String) :
    (∀ n ∈ (deleteNode s id).nodes, n.id ≠ id) ∧
    (∀ c ∈ (deleteNode s id).connections, c.from_ ≠ id ∧ c.to_ ≠ id) ∧
    (deleteNode s id).nodes = s.nodes.filter (fun n => n.id ≠ id) ∧
    (deleteNode s id).nodes.Sublist s.nodes ∧
    (∀ n, n.id ≠ id → (deleteNode s id).nodes.count n = s.nodes.count n) ∧
    (deleteNode s id).connections.Sublist s.connections ∧
    (∀ c, c.from_ ≠ id → c.to_ ≠ id →
      (deleteNode s id).connections.count c = s.connections.count c) ∧
    ((∀ c ∈ s.connections,
        (∃ n ∈ s.nodes, n.id = c.from_) ∧ (∃ n ∈ s.nodes, n.id = c.to_)) →
      ∀ c ∈ (deleteNode s id).connections,
        (∃ n ∈ (deleteNode s id).nodes, n.id = c.from_) ∧
        (∃ n ∈ (deleteNode s id).nodes, n.id = c.to_)) := by
  refine ⟨?_, ?_, rfl, ?_, ?_, ?_, ?_, ?_⟩
  · intro n hn
    simp only [deleteNode, List.mem_filter, decide_eq_true_eq] at hn
    exact hn.2
  · intro c hc
    simp only [deleteNode, List.mem_filter, decide_eq_true_eq] at hc
    exact hc.2
  · exact List.filter_sublist _
  · intro n hn
    exact List.count_filter (by simpa using hn)
  · exact List.filter_sublist _
  · intro c h1 h2
    exact List.count_filter (by simp [h1, h2])
  · intro hall c hc
    simp only [deleteNode, List.mem_filter, decide_eq_true_eq] at hc ⊢
    obtain ⟨hmem, hf, ht⟩ := hc
    obtain ⟨⟨n, hn, hnf⟩, ⟨m, hm, hmt⟩⟩ := hall c hmem
    exact ⟨⟨n, ⟨hn, by rw [hnf]; exact hf⟩, hnf⟩, ⟨m, ⟨hm, by rw [hmt]; exact ht⟩, hmt⟩⟩

/-! ## Creating a connection -/

/-- C2: `createConnection` changes nothing when `fromId = toId` or when a
connection already joins the two nodes in either direction; otherwise it
appends exactly one connection from `fromId` to `toId` with the given handles
and keeps the existing ones.  A list without self-loop and with at most one
connection per unordered pair of nodes keeps both properties. -/
theorem createConnection_guarded (s : State K) (now : Nat) (fromId toId : String)
    (fromHandle toHandle : Option HandleId) :
    ((fromId = toId ∨ ∃ c ∈ s.connections,
          (c.from_ = fromId ∧ c.to_ = toId) ∨ (c.from_ = toId ∧ c.to_ = fromId)) →
        createConnection s now fromId toId fromHandle toHandle = s) ∧
    (¬ (fromId = toId ∨ ∃ c ∈ s.connections,
          (c.from_ = fromId ∧ c.to_ = toId) ∨ (c.from_ = toId ∧ c.to_ = fromId)) →
        ∃ c : Connection K,
          (createConnection s now fromId toId fromHandle toHandle).connections =
            s.connections ++ [c] ∧
          c.from_ = fromId ∧ c.to_ = toId ∧
          c.fromHandle = fromHandle ∧ c.toHandle = toHandle) ∧
    ((∀ c ∈ s.connections, c.from_ ≠ c.to_) ∧ s.connections.Pairwise (fun a b => ¬ samePair a b) →
        (∀ c ∈ (createConnection s now fromId toId fromHandle toHandle).connections,
            c.from_ ≠ c.to_) ∧
        (createConnection s now fromId toId fromHandle toHandle).connections.Pairwise
          (fun a b => ¬ samePair a b)) := by
  by_cases hself : fromId = toId
  · simp [createConnection, hself]
  by_cases hdup : ∃ c ∈ s.connections,
      (c.from_ = fromId ∧ c.to_ = toId) ∨ (c.from_ = toId ∧ c.to_ = fromId)
  · have hfind : ∃ c, s.connections.find? (fun conn =>
          decide ((conn.from_ = fromId ∧ conn.to_ = toId) ∨
            (conn.from_ = toId ∧ conn.to_ = fromId))) = some c := by
      cases h : s.connections.find? (fun conn =>
          decide ((conn.from_ = fromId ∧ conn.to_ = toId) ∨
            (conn.from_ = toId ∧ conn.to_ = fromId))) with
      | some c => exact ⟨c, rfl⟩
      | none =>
        rw [List.find?_eq_none] at h
        obtain ⟨c, hc, hp⟩ := hdup
        exact absurd (by simpa using hp) (h c hc)
    obtain ⟨c0, hc0⟩ := hfind
    have hres : createConnection s now fromId toId fromHandle toHandle = s := by
      simp only [createConnection, if_neg hself, hc0]
    rw [hres]
    exact ⟨fun _ => rfl, fun h => absurd (Or.inr hdup) h, fun h => h⟩
  · have hfind : s.connections.find? (fun conn =>
          decide ((conn.from_ = fromId ∧ conn.to_ = toId) ∨
            (conn.from_ = toId ∧ conn.to_ = fromId))) = none := by
      rw [List.find?_eq_none]
      intro c hc hp
      exact hdup ⟨c, hc, by simpa using hp⟩
    refine ⟨fun h => ?_, fun _ => ?_, ?_⟩
    · rcases h with h | h
      · exact absurd h hself
      · exact absurd h hdup
    · simp only [createConnection, if_neg hself, hfind]
      exact ⟨_, rfl, rfl, rfl, rfl, rfl⟩
    · rintro ⟨hloop, hpair⟩
      simp only [createConnection, if_neg hself, hfind]
      refine ⟨?_, ?_⟩
      · intro c hc
        rcases List.mem_append.1 hc with h | h
        · exact hloop c h
        · rw [List.mem_singleton.1 h]
          exact hself
      · rw [List.pairwise_append]
        refine ⟨hpair, List.pairwise_singleton _ _, ?_⟩
        intro a ha b hb
        rw [List.mem_singleton.1 hb]
        intro hsame
        exact hdup ⟨a, ha, hsame⟩

/-! ## Handles -/

/-- C3: whatever the node type, `getNodeHandles` returns the four midpoints of
the edges of the bounding box, each tagged with its own id, and
`getHandlePosition` reads them; so nodes with the same `x`, `y`, `width`,
`height` have the same handles.  For `x = 100`, `y = 100`, `width = 120`,
`height = 60` the top handle is `(160, 100)` and the left one `(100, 130)`. -/
theorem getNodeHandles_uniform (node : Node K) :
    getNodeHandles node =
      { top := { x := node.x + node.width / 2, y := node.y, id := .top },
        right := { x := node.x + node.width, y := node.y + node.height / 2, id := .right },
        bottom := { x := node.x + node.width / 2, y := node.y + node.height, id := .bottom },
        left := { x := node.x, y := node.y + node.height / 2, id := .left } } ∧
    (∀ h : HandleId, (getHandlePosition node h).id = h) ∧
    getHandlePosition node .top = (getNodeHandles node).top ∧
    getHandlePosition node .right = (getNodeHandles node).right ∧
    getHandlePosition node .bottom = (getNodeHandles node).bottom ∧
    getHandlePosition node .left = (getNodeHandles node).left ∧
    (∀ other : Node K, other.x = node.x → other.y = node.y →
      other.width = node.width → other.height = node.height →
      getNodeHandles other = getNodeHandles node) ∧
    (node.x = 100 → node.y = 100 → node.width = 120 → node.height = 60 →
      (getNodeHandles node).top = { x := 160, y := 100, id := .top } ∧
      (getNodeHandles node).left = { x := 100, y := 130, id := .left }) := by
  have key : ∀ n : Node K, getNodeHandles n =
      { top := { x := n.x + n.width / 2, y := n.y, id := .top },
        right := { x := n.x + n.width, y := n.y + n.height / 2, id := .right },
        bottom := { x := n.x + n.width / 2, y := n.y + n.height, id := .bottom },
        left := { x := n.x, y := n.y + n.height / 2, id := .left } } := by
    intro n
    unfold getNodeHandles
    split_ifs <;> rfl
  refine ⟨key node, ?_, rfl, rfl, rfl, rfl, ?_, ?_⟩
  · intro h
    cases h <;> simp [getHandlePosition, key]
  · intro other hx hy hw hh
    rw [key, key, hx, hy, hw, hh]
  · intro hx hy hw hh
    rw [key, hx, hy, hw, hh]
    norm_num

end Scene

section Geometry

variable {K : Type} [LinearOrderedField K]

/-! ## Boundary point of a rectangle -/

/-- The sign choice `d > 0 ? W : -W` is `W / |d| * d`. -/
theorem sign_choice_eq {W d : K} (hd : d ≠ 0) :
    (if d > 0 then W else -W) = W / |d| * d := by
  by_cases hpos : d > 0
  · rw [if_pos hpos, abs_of_pos hpos, div_mul_cancel₀ W hd]
  · have hneg : d < 0 := lt_of_le_of_ne (not_lt.1 hpos) hd
    rw [if_neg hpos, abs_of_neg hneg, div_neg, neg_mul, div_mul_cancel₀ W hd]

/-- The side branch of the ray/box computation: when `|dy| / H < |dx| / W` the
ray leaves the box through a vertical side. -/
theorem box_side_branch {W H dx dy : K} (hW : 0 < W) (hH : 0 < H)
    (h : |dy| / H < |dx| / W) :
    dx ≠ 0 ∧ 0 < W / |dx| ∧ |dy * (W / |dx|)| ≤ H ∧
      (if dx > 0 then W else -W) = W / |dx| * dx := by
  have hdx : 0 < |dx| := by
    have h0 : 0 ≤ |dy| / H := div_nonneg (abs_nonneg _) hH.le
    have h1 : 0 < |dx| / W := lt_of_le_of_lt h0 h
    by_contra hcon
    have : |dx| = 0 := le_antisymm (not_lt.1 hcon) (abs_nonneg _)
    rw [this, zero_div] at h1
    exact lt_irrefl _ h1
  have hne : dx ≠ 0 := abs_pos.1 hdx
  refine ⟨hne, div_pos hW hdx, ?_, sign_choice_eq hne⟩
  rw [abs_mul, abs_of_pos (div_pos hW hdx)]
  rw [div_lt_iff₀ hH, div_mul_eq_mul_div, lt_div_iff₀ hW] at h
  rw [← mul_div_assoc, div_le_iff₀ hdx]
  linarith

/-- The other branch: when `|dy| / H < |dx| / W` fails and the direction is
not zero, the ray leaves the box through a horizontal side. -/
theorem box_top_branch {W H dx dy : K} (hW : 0 < W) (hH : 0 < H)
    (h : ¬ |dy| / H < |dx| / W) (hnz : dx ≠ 0 ∨ dy ≠ 0) :
    dy ≠ 0 ∧ 0 < H / |dy| ∧ |dx * (H / |dy|)| ≤ W ∧
      (if dy > 0 then H else -H) = H / |dy| * dy := by
  have hle : |dx| / W ≤ |dy| / H := not_lt.1 h
  have hne : dy ≠ 0 := by
    intro hzero
    rw [hzero, abs_zero, zero_div] at hle
    have h0 : 0 ≤ |dx| / W := div_nonneg (abs_nonneg _) hW.le
    have h1 : |dx| / W = 0 := le_antisymm hle h0
    rcases div_eq_zero_iff.1 h1 with h2 | h2
    · rcases hnz with h3 | h3
      · exact h3 (abs_eq_zero.1 h2)
      · exact h3 hzero
    · exact hW.ne' h2
  have hdy : 0 < |dy| := abs_pos.2 hne
  refine ⟨hne, div_pos hH hdy, ?_, sign_choice_eq hne⟩
  rw [abs_mul, abs_of_pos (div_pos hH hdy)]
  rw [div_le_iff₀ hW, div_mul_eq_mul_div, le_div_iff₀ hH] at hle
  rw [← mul_div_assoc, div_le_iff₀ hdy]
  linarith

/-- C4: for a rectangle of positive width and height and a target other than
its center, `getNodeEdgePoint` returns a finite point on the perimeter of the
bounding box, of the form `center + t * (target - center)` with `t > 0`. -/
theorem rectangle_edge_point (sqrt : K → K) (node : Node K) (target : Point K)
    (ht : node.type = "rectangle") (hw : 0 < node.width) (hh : 0 < node.height)
    (hne : target ≠ getNodeCenter node) :
    ∃ p : Point K, getNodeEdgePoint sqrt node target = p.toJs ∧ onBoxPerimeter node p ∧
      ∃ t : K, 0 < t ∧
        p.x = (getNodeCenter node).x + t * (target.x - (getNodeCenter node).x) ∧
        p.y = (getNodeCenter node).y + t * (target.y - (getNodeCenter node).y) := by
  have hc : node.type ≠ "circle" := by rw [ht]; decide
  have hd : node.type ≠ "diamond" := by rw [ht]; decide
  have hW : 0 < node.width / 2 := by positivity
  have hH : 0 < node.height / 2 := by positivity
  by_cases hbr : |target.y - (node.y + node.height / 2)| / (node.height / 2) <
      |target.x - (node.x + node.width / 2)| / (node.width / 2)
  · obtain ⟨hdx, htpos, hbound, hsign⟩ := box_side_branch hW hH hbr
    have habs : |target.x - (node.x + node.width / 2)| ≠ 0 := abs_ne_zero.2 hdx
    refine ⟨⟨node.x + node.width / 2 +
        (if target.x - (node.x + node.width / 2) > 0 then node.width / 2 else -(node.width / 2)),
        node.y + node.height / 2 + (target.y - (node.y + node.height / 2)) *
          (node.width / 2 / |target.x - (node.x + node.width / 2)|)⟩, ?_, ?_, ?_⟩
    · simp [getNodeEdgePoint, getNodeCenter, hc, hd, hW.ne', hH.ne', hbr, habs, Point.toJs]
    · have hb := abs_le.1 hbound
      refine ⟨?_, ?_, ?_, ?_, ?_⟩
      · split_ifs <;> linarith
      · split_ifs <;> linarith
      · linarith [hb.1]
      · linarith [hb.2]
      · split_ifs
        · right; left; ring
        · left; ring
    · refine ⟨_, htpos, ?_, ?_⟩
      · simp only [getNodeCenter]
        rw [hsign]
      · simp only [getNodeCenter]
        ring
  · have hnz : target.x - (node.x + node.width / 2) ≠ 0 ∨
        target.y - (node.y + node.height / 2) ≠ 0 := by
      by_contra hcon
      push_neg at hcon
      apply hne
      cases target with
      | mk tx ty =>
        simp only [getNodeCenter, Point.mk.injEq]
        exact ⟨sub_eq_zero.1 hcon.1, sub_eq_zero.1 hcon.2⟩
    obtain ⟨hdy, htpos, hbound, hsign⟩ := box_top_branch hW hH hbr hnz
    have habs : |target.y - (node.y + node.height / 2)| ≠ 0 := abs_ne_zero.2 hdy
    refine ⟨⟨node.x + node.width / 2 + (target.x - (node.x + node.width / 2)) *
          (node.height / 2 / |target.y - (node.y + node.height / 2)|),
        node.y + node.height / 2 +
        (if target.y - (node.y + node.height / 2) > 0 then node.height / 2
          else -(node.height / 2))⟩, ?_, ?_, ?_⟩
    · simp [getNodeEdgePoint, getNodeCenter, hc, hd, hW.ne', hH.ne', hbr, habs, Point.toJs]
    · have hb := abs_le.1 hbound
      refine ⟨?_, ?_, ?_, ?_, ?_⟩
      · linarith [hb.1]
      · linarith [hb.2]
      · split_ifs <;> linarith
      · split_ifs <;> linarith
      · split_ifs
        · right; right; right; ring
        · right; right; left; ring
    · refine ⟨_, htpos, ?_, ?_⟩
      · simp only [getNodeCenter]
        ring
      · simp only [getNodeCenter]
        rw [hsign]

/-- Witness of C4: the default rectangle at the origin, aimed at `(200, 60)`. -/
theorem rectangle_edge_point_witness :
    getNodeEdgePoint ratSqrt rectNode ⟨200, 60⟩ = ⟨.fin 120, .fin (300 / 7)⟩ ∧
    ∃ p : Point ℚ, getNodeEdgePoint ratSqrt rectNode ⟨200, 60⟩ = p.toJs ∧
      onBoxPerimeter rectNode p ∧
      ∃ t : ℚ, 0 < t ∧
        p.x = (getNodeCenter rectNode).x + t * (200 - (getNodeCenter rectNode).x) ∧
        p.y = (getNodeCenter rectNode).y + t * (60 - (getNodeCenter rectNode).y) :=
  ⟨by
    simp [getNodeEdgePoint, getNodeCenter, rectNode, mkNode, JsNum.fin_div_fin]
    norm_num [abs_div],
   rectangle_edge_point ratSqrt rectNode ⟨200, 60⟩ rfl
    (by norm_num [rectNode, mkNode]) (by norm_num [rectNode, mkNode])
    (by norm_num [getNodeCenter, rectNode, mkNode])⟩

/-! ## Boundary point of a circle -/

/-- The circle branch of `getNodeEdgePoint` when the computed distance is not
zero. -/
theorem getNodeEdgePoint_circle (sqrt : K → K) (node : Node K) (target : Point K)
    (ht : node.type = "circle")
    (hd : sqrt ((target.x - (getNodeCenter node).x) * (target.x - (getNodeCenter node).x) +
      (target.y - (getNodeCenter node).y) * (target.y - (getNodeCenter node).y)) ≠ 0) :
    getNodeEdgePoint sqrt node target =
      (⟨(getNodeCenter node).x +
          (target.x - (getNodeCenter node).x) /
            sqrt ((target.x - (getNodeCenter node).x) * (target.x - (getNodeCenter node).x) +
              (target.y - (getNodeCenter node).y) * (target.y - (getNodeCenter node).y)) *
          (min node.width node.height / 2),
        (getNodeCenter node).y +
          (target.y - (getNodeCenter node).y) /
            sqrt ((target.x - (getNodeCenter node).x) * (target.x - (getNodeCenter node).x) +
              (target.y - (getNodeCenter node).y) * (target.y - (getNodeCenter node).y)) *
          (min node.width node.height / 2)⟩ : Point K).toJs := by
  simp only [getNodeEdgePoint, if_pos ht, Point.toJs, JsNum.fin_div_fin_of_ne _ hd,
    JsNum.fin_mul_fin, JsNum.fin_add_fin]

/-- A direction that is not zero has a positive squared length. -/
theorem sq_length_pos {dx dy : K} (h : dx ≠ 0 ∨ dy ≠ 0) : 0 < dx * dx + dy * dy := by
  rcases h with h | h
  · have := mul_self_pos.2 h
    nlinarith [mul_self_nonneg dy]
  · have := mul_self_pos.2 h
    nlinarith [mul_self_nonneg dx]

/-- A target other than the center gives a direction that is not zero. -/
theorem direction_ne_zero {c target : Point K} (h : target ≠ c) :
    target.x - c.x ≠ 0 ∨ target.y - c.y ≠ 0 := by
  by_contra hcon
  push_neg at hcon
  apply h
  cases target
  cases c
  simp only [Point.mk.injEq]
  exact ⟨sub_eq_zero.1 hcon.1, sub_eq_zero.1 hcon.2⟩

/-- A square root that is exact and non-negative at a positive value is
positive there. -/
theorem exact_sqrt_pos {d v : K} (hv : 0 < v) (hd : 0 ≤ d ∧ d * d = v) : 0 < d := by
  rcases lt_or_eq_of_le hd.1 with h | h
  · exact h
  · rw [← h, zero_mul] at hd
    exact absurd hd.2 hv.ne

/-- The circle branch of `getNodeEdgePoint`, where `sqrt` is exact at the
squared length of the direction: the point, its distance to the center and the
ray it lies on. -/
theorem getNodeEdgePoint_circle_exact (sqrt : K → K) (node : Node K) (target : Point K)
    (ht : node.type = "circle") (hw : 0 < node.width) (hh : 0 < node.height)
    (hne : target ≠ getNodeCenter node)
    (hs : 0 ≤ sqrt ((target.x - (getNodeCenter node).x) * (target.x - (getNodeCenter node).x) +
        (target.y - (getNodeCenter node).y) * (target.y - (getNodeCenter node).y)) ∧
      sqrt ((target.x - (getNodeCenter node).x) * (target.x - (getNodeCenter node).x) +
        (target.y - (getNodeCenter node).y) * (target.y - (getNodeCenter node).y)) *
      sqrt ((target.x - (getNodeCenter node).x) * (target.x - (getNodeCenter node).x) +
        (target.y - (getNodeCenter node).y) * (target.y - (getNodeCenter node).y)) =
      (target.x - (getNodeCenter node).x) * (target.x - (getNodeCenter node).x) +
        (target.y - (getNodeCenter node).y) * (target.y - (getNodeCenter node).y)) :
    ∃ p : Point K, getNodeEdgePoint sqrt node target = p.toJs ∧
      p.x = (getNodeCenter node).x + (target.x - (getNodeCenter node).x) /
        sqrt ((target.x - (getNodeCenter node).x) * (target.x - (getNodeCenter node).x) +
          (target.y - (getNodeCenter node).y) * (target.y - (getNodeCenter node).y)) *
        (min node.width node.height / 2) ∧
      p.y = (getNodeCenter node).y + (target.y - (getNodeCenter node).y) /
        sqrt ((target.x - (getNodeCenter node).x) * (target.x - (getNodeCenter node).x) +
          (target.y - (getNodeCenter node).y) * (target.y - (getNodeCenter node).y)) *
        (min node.width node.height / 2) ∧
      (p.x - (getNodeCenter node).x) ^ 2 + (p.y - (getNodeCenter node).y) ^ 2 =
        (min node.width node.height / 2) ^ 2 ∧
      (∀ e : K, 0 ≤ e →
        e * e = (p.x - (getNodeCenter node).x) ^ 2 + (p.y - (getNodeCenter node).y) ^ 2 →
        e = min node.width node.height / 2) ∧
      ∃ t : K, 0 < t ∧
        p.x = (getNodeCenter node).x + t * (target.x - (getNodeCenter node).x) ∧
        p.y = (getNodeCenter node).y + t * (target.y - (getNodeCenter node).y) := by
  have hdir := direction_ne_zero hne
  have hpos := sq_length_pos hdir
  have hdpos := exact_sqrt_pos hpos hs
  have hr : 0 < min node.width node.height / 2 := by
    have : 0 < min node.width node.height := lt_min hw hh
    positivity
  have hedge := getNodeEdgePoint_circle sqrt node target ht hdpos.ne'
  generalize target.x - (getNodeCenter node).x = dx at *
  generalize target.y - (getNodeCenter node).y = dy at *
  generalize sqrt (dx * dx + dy * dy) = d at *
  generalize min node.width node.height / 2 = r at *
  have hd2 : d ^ 2 = dx * dx + dy * dy := by rw [sq]; exact hs.2
  have hsq : (dx / d * r) ^ 2 + (dy / d * r) ^ 2 = r ^ 2 := by
    field_simp
    rw [hd2]
    ring
  refine ⟨_, hedge, rfl, rfl, ?_, ?_, ?_⟩
  · simp only [add_sub_cancel_left]
    exact hsq
  · intro e he hee
    simp only [add_sub_cancel_left] at hee
    rw [hsq, sq] at hee
    rcases mul_self_eq_mul_self_iff.1 hee with h | h
    · exact h
    · linarith
  · exact ⟨r / d, div_pos hr hdpos, by ring, by ring⟩

/-- C6: for a circle node of positive width and height and a target other than
its center, where `sqrt` is the exact square root of the squared length of the
direction, `getNodeEdgePoint` returns
`center + (target - center) / |target - center| * min(width, height) / 2`:
a finite point at distance exactly `min(width, height) / 2` from the center,
on the ray from the center toward the target. -/
theorem circle_edge_point (sqrt : K → K) (node : Node K) (target : Point K)
    (ht : node.type = "circle") (hw : 0 < node.width) (hh : 0 < node.height)
    (hne : target ≠ getNodeCenter node)
    (hs : 0 ≤ sqrt ((target.x - (getNodeCenter node).x) * (target.x - (getNodeCenter node).x) +
        (target.y - (getNodeCenter node).y) * (target.y - (getNodeCenter node).y)) ∧
      sqrt ((target.x - (getNodeCenter node).x) * (target.x - (getNodeCenter node).x) +
        (target.y - (getNodeCenter node).y) * (target.y - (getNodeCenter node).y)) *
      sqrt ((target.x - (getNodeCenter node).x) * (target.x - (getNodeCenter node).x) +
        (target.y - (getNodeCenter node).y) * (target.y - (getNodeCenter node).y)) =
      (target.x - (getNodeCenter node).x) * (target.x - (getNodeCenter node).x) +
        (target.y - (getNodeCenter node).y) * (target.y - (getNodeCenter node).y)) :
    ∃ p : Point K, getNodeEdgePoint sqrt node target = p.toJs ∧
      p.x = (getNodeCenter node).x + (target.x - (getNodeCenter node).x) /
        sqrt ((target.x - (getNodeCenter node).x) * (target.x - (getNodeCenter node).x) +
          (target.y - (getNodeCenter node).y) * (target.y - (getNodeCenter node).y)) *
        (min node.width node.height / 2) ∧
      p.y = (getNodeCenter node).y + (target.y - (getNodeCenter node).y) /
        sqrt ((target.x - (getNodeCenter node).x) * (target.x - (getNodeCenter node).x) +
          (target.y - (getNodeCenter node).y) * (target.y - (getNodeCenter node).y)) *
        (min node.width node.height / 2) ∧
      (p.x - (getNodeCenter node).x) ^ 2 + (p.y - (getNodeCenter node).y) ^ 2 =
        (min node.width node.height / 2) ^ 2 ∧
      (∀ e : K, 0 ≤ e →
        e * e = (p.x - (getNodeCenter node).x) ^ 2 + (p.y - (getNodeCenter node).y) ^ 2 →
        e = min node.width node.height / 2) ∧
      ∃ t : K, 0 < t ∧
        p.x = (getNodeCenter node).x + t * (target.x - (getNodeCenter node).x) ∧
        p.y = (getNodeCenter node).y + t * (target.y - (getNodeCenter node).y) :=
  getNodeEdgePoint_circle_exact sqrt node target ht hw hh hne hs

/-- On the square of a natural number `ratSqrt` is exact. -/
theorem ratSqrt_sq_nat (n : ℕ) : ratSqrt ((n : ℚ) * n) = n := by
  have h : ((n : ℚ) * n) = ((n * n : ℕ) : ℚ) := by push_cast; ring
  rw [h]
  simp only [ratSqrt, Rat.num_natCast, Rat.den_natCast, Int.toNat_natCast, Nat.sqrt_eq,
    Nat.sqrt_one, Nat.cast_one, div_one]

/-- At zero `ratSqrt` is zero. -/
theorem ratSqrt_zero : ratSqrt 0 = 0 := by
  simp [ratSqrt]

/-- The square root of 10000 is 100. -/
theorem ratSqrt_10000 : ratSqrt 10000 = 100 := by
  have h := ratSqrt_sq_nat 100
  norm_num at h
  exact h

/-- The square root of 90000 is 300. -/
theorem ratSqrt_90000 : ratSqrt 90000 = 300 := by
  have h := ratSqrt_sq_nat 300
  norm_num at h
  exact h

/-- Witness of C6: the circle `A` aimed at `(110, 130)`, at distance 100 from
its center `(50, 50)`; the boundary point is `(80, 90)`. -/
theorem circle_edge_point_witness :
    getNodeEdgePoint ratSqrt circleA ⟨110, 130⟩ = ⟨.fin 80, .fin 90⟩ ∧
    ∃ p : Point ℚ, getNodeEdgePoint ratSqrt circleA ⟨110, 130⟩ = p.toJs ∧
      p.x = (getNodeCenter circleA).x + (110 - (getNodeCenter circleA).x) /
        ratSqrt ((110 - (getNodeCenter circleA).x) * (110 - (getNodeCenter circleA).x) +
          (130 - (getNodeCenter circleA).y) * (130 - (getNodeCenter circleA).y)) *
        (min circleA.width circleA.height / 2) ∧
      p.y = (getNodeCenter circleA).y + (130 - (getNodeCenter circleA).y) /
        ratSqrt ((110 - (getNodeCenter circleA).x) * (110 - (getNodeCenter circleA).x) +
          (130 - (getNodeCenter circleA).y) * (130 - (getNodeCenter circleA).y)) *
        (min circleA.width circleA.height / 2) ∧
      (p.x - (getNodeCenter circleA).x) ^ 2 + (p.y - (getNodeCenter circleA).y) ^ 2 =
        (min circleA.width circleA.height / 2) ^ 2 ∧
      (∀ e : ℚ, 0 ≤ e →
        e * e = (p.x - (getNodeCenter circleA).x) ^ 2 + (p.y - (getNodeCenter circleA).y) ^ 2 →
        e = min circleA.width circleA.height / 2) ∧
      ∃ t : ℚ, 0 < t ∧
        p.x = (getNodeCenter circleA).x + t * (110 - (getNodeCenter circleA).x) ∧
        p.y = (getNodeCenter circleA).y + t * (130 - (getNodeCenter circleA).y) :=
  ⟨by
    norm_num [getNodeEdgePoint, getNodeCenter, circleA, mkNode, ratSqrt_10000,
      JsNum.fin_div_fin],
   circle_edge_point ratSqrt circleA ⟨110, 130⟩ rfl
    (by norm_num [circleA, mkNode]) (by norm_num [circleA, mkNode])
    (by norm_num [getNodeCenter, circleA, mkNode])
    (by norm_num [getNodeCenter, circleA, mkNode, ratSqrt_10000])⟩

/-! ## Boundary point of a diamond -/

/-- C5, evaluated: for the default diamond 120 × 80 at the origin (center
`(60, 40)`) and the target `(64, 43)`, `getNodeEdgePoint` returns `(140, 80)`,
which is outside the bounding box `[0, 120] × [0, 80]`. -/
theorem diamond_edge_point_off_box :
    0 < diamondNode.width ∧ 0 < diamondNode.height ∧
    (⟨64, 43⟩ : Point ℚ) ≠ getNodeCenter diamondNode ∧
    getNodeEdgePoint ratSqrt diamondNode ⟨64, 43⟩ = (⟨140, 80⟩ : Point ℚ).toJs ∧
    ¬ onBoxPerimeter diamondNode ⟨140, 80⟩ := by
  refine ⟨by norm_num [diamondNode, mkNode], by norm_num [diamondNode, mkNode],
    by norm_num [getNodeCenter, diamondNode, mkNode], ?_, ?_⟩
  · simp [getNodeEdgePoint, getNodeCenter, diamondNode, mkNode, JsNum.fin_div_fin, Point.toJs]
    norm_num [abs_div]
  · norm_num [onBoxPerimeter, diamondNode, mkNode]

/-! ## The degenerate direction -/

/-- C7, evaluated: aimed at its own center, a rectangle gives `(NaN, y)`, a
circle `(NaN, NaN)` and a diamond `(NaN, y)`; none of them is the center. -/
theorem edge_point_at_center_is_nan :
    getNodeEdgePoint ratSqrt rectNode (getNodeCenter rectNode) = ⟨.nan, .fin 0⟩ ∧
    getNodeEdgePoint ratSqrt circleA (getNodeCenter circleA) = ⟨.nan, .nan⟩ ∧
    getNodeEdgePoint ratSqrt diamondNode (getNodeCenter diamondNode) = ⟨.nan, .fin 0⟩ ∧
    getNodeEdgePoint ratSqrt rectNode (getNodeCenter rectNode) ≠ (getNodeCenter rectNode).toJs ∧
    getNodeEdgePoint ratSqrt circleA (getNodeCenter circleA) ≠ (getNodeCenter circleA).toJs ∧
    getNodeEdgePoint ratSqrt diamondNode (getNodeCenter diamondNode) ≠
      (getNodeCenter diamondNode).toJs := by
  have h1 : getNodeEdgePoint ratSqrt rectNode (getNodeCenter rectNode) = ⟨.nan, .fin 0⟩ := by
    simp [getNodeEdgePoint, getNodeCenter, rectNode, mkNode, JsNum.fin_div_fin]
  have h2 : getNodeEdgePoint ratSqrt circleA (getNodeCenter circleA) = ⟨.nan, .nan⟩ := by
    simp [getNodeEdgePoint, getNodeCenter, circleA, mkNode, ratSqrt_zero]
  have h3 : getNodeEdgePoint ratSqrt diamondNode (getNodeCenter diamondNode) =
      ⟨.nan, .fin 0⟩ := by
    simp [getNodeEdgePoint, getNodeCenter, diamondNode, mkNode, JsNum.abs, JsNum.le]
  refine ⟨h1, h2, h3, ?_, ?_, ?_⟩
  · rw [h1]; simp [Point.toJs]
  · rw [h2]; simp [Point.toJs]
  · rw [h3]; simp [Point.toJs]

/-! ## Connection routing -/

/-- Without both handles, and with both nodes found, `getConnectionPath` is the
segment between the two boundary points, each aimed at the other center. -/
theorem getConnectionPath_edge (sqrt : K → K) (nodes : List (Node K)) (fromNode toNode : Node K)
    (from_ to_ : String) (connection : Option (Connection K))
    (hA : nodes.find? (fun n => n.id = from_) = some fromNode)
    (hB : nodes.find? (fun n => n.id = to_) = some toNode)
    (hconn : ∀ c, connection = some c → c.fromHandle = none ∨ c.toHandle = none) :
    getConnectionPath sqrt nodes from_ to_ connection =
      .segment (getNodeEdgePoint sqrt fromNode (getNodeCenter toNode))
        (getNodeEdgePoint sqrt toNode (getNodeCenter fromNode)) := by
  cases connection with
  | none => simp only [getConnectionPath, hA, hB, Option.bind]
  | some c =>
    rcases hconn c rfl with h | h
    · simp only [getConnectionPath, hA, hB, Option.bind, h]
    · cases hf : c.fromHandle <;> simp only [getConnectionPath, hA, hB, Option.bind, h, hf]

/-- C9: for two circle nodes `A` and `B` of positive sizes and distinct centers
in the node list and a connection `A → B` without explicit handles, where
`sqrt` is exact at the squared distance of the centers, `getConnectionPath` is
the segment from the boundary point of `A` facing the center of `B` to the
boundary point of `B` facing the center of `A`; the two endpoints are finite,
lie on the rays between the centers, on their circles of radius
`min(width, height) / 2`, and are collinear with the two centers. -/
theorem circle_connection_path (sqrt : K → K) (nodes : List (Node K)) (A B : Node K)
    (connection : Option (Connection K))
    (hA : nodes.find? (fun n => n.id = A.id) = some A)
    (hB : nodes.find? (fun n => n.id = B.id) = some B)
    (hAt : A.type = "circle") (hBt : B.type = "circle")
    (hAw : 0 < A.width) (hAh : 0 < A.height) (hBw : 0 < B.width) (hBh : 0 < B.height)
    (hne : getNodeCenter A ≠ getNodeCenter B)
    (hconn : ∀ c, connection = some c → c.fromHandle = none ∧ c.toHandle = none)
    (hs : 0 ≤ sqrt (((getNodeCenter B).x - (getNodeCenter A).x) *
          ((getNodeCenter B).x - (getNodeCenter A).x) +
        ((getNodeCenter B).y - (getNodeCenter A).y) *
          ((getNodeCenter B).y - (getNodeCenter A).y)) ∧
      sqrt (((getNodeCenter B).x - (getNodeCenter A).x) *
          ((getNodeCenter B).x - (getNodeCenter A).x) +
        ((getNodeCenter B).y - (getNodeCenter A).y) *
          ((getNodeCenter B).y - (getNodeCenter A).y)) *
      sqrt (((getNodeCenter B).x - (getNodeCenter A).x) *
          ((getNodeCenter B).x - (getNodeCenter A).x) +
        ((getNodeCenter B).y - (getNodeCenter A).y) *
          ((getNodeCenter B).y - (getNodeCenter A).y)) =
      ((getNodeCenter B).x - (getNodeCenter A).x) *
          ((getNodeCenter B).x - (getNodeCenter A).x) +
        ((getNodeCenter B).y - (getNodeCenter A).y) *
          ((getNodeCenter B).y - (getNodeCenter A).y)) :
    ∃ p q : Point K,
      getConnectionPath sqrt nodes A.id B.id connection = .segment p.toJs q.toJs ∧
      getNodeEdgePoint sqrt A (getNodeCenter B) = p.toJs ∧
      getNodeEdgePoint sqrt B (getNodeCenter A) = q.toJs ∧
      (∃ t : K, 0 < t ∧
        p.x = (getNodeCenter A).x + t * ((getNodeCenter B).x - (getNodeCenter A).x) ∧
        p.y = (getNodeCenter A).y + t * ((getNodeCenter B).y - (getNodeCenter A).y)) ∧
      (∃ u : K, 0 < u ∧
        q.x = (getNodeCenter B).x + u * ((getNodeCenter A).x - (getNodeCenter B).x) ∧
        q.y = (getNodeCenter B).y + u * ((getNodeCenter A).y - (getNodeCenter B).y)) ∧
      (p.x - (getNodeCenter A).x) ^ 2 + (p.y - (getNodeCenter A).y) ^ 2 =
        (min A.width A.height / 2) ^ 2 ∧
      (q.x - (getNodeCenter B).x) ^ 2 + (q.y - (getNodeCenter B).y) ^ 2 =
        (min B.width B.height / 2) ^ 2 ∧
      (p.x - (getNodeCenter A).x) * ((getNodeCenter B).y - (getNodeCenter A).y) =
        (p.y - (getNodeCenter A).y) * ((getNodeCenter B).x - (getNodeCenter A).x) ∧
      (q.x - (getNodeCenter A).x) * ((getNodeCenter B).y - (getNodeCenter A).y) =
        (q.y - (getNodeCenter A).y) * ((getNodeCenter B).x - (getNodeCenter A).x) := by
  have hswap : ((getNodeCenter A).x - (getNodeCenter B).x) *
        ((getNodeCenter A).x - (getNodeCenter B).x) +
      ((getNodeCenter A).y - (getNodeCenter B).y) *
        ((getNodeCenter A).y - (getNodeCenter B).y) =
      ((getNodeCenter B).x - (getNodeCenter A).x) *
        ((getNodeCenter B).x - (getNodeCenter A).x) +
      ((getNodeCenter B).y - (getNodeCenter A).y) *
        ((getNodeCenter B).y - (getNodeCenter A).y) := by ring
  obtain ⟨p, hp, -, -, hpd, -, t, ht, hpx, hpy⟩ :=
    getNodeEdgePoint_circle_exact sqrt A (getNodeCenter B) hAt hAw hAh (Ne.symm hne) hs
  obtain ⟨q, hq, -, -, hqd, -, u, hu, hqx, hqy⟩ :=
    getNodeEdgePoint_circle_exact sqrt B (getNodeCenter A) hBt hBw hBh hne
      (by rw [hswap]; exact hs)
  refine ⟨p, q, ?_, hp, hq, ⟨t, ht, hpx, hpy⟩, ⟨u, hu, hqx, hqy⟩, hpd, hqd, ?_, ?_⟩
  · rw [getConnectionPath_edge sqrt nodes A B A.id B.id connection hA hB
      (fun c hc => Or.inl (hconn c hc).1), hp, hq]
  · rw [hpx, hpy]; ring
  · rw [hqx, hqy]; ring

/-- Witness of C9: the circles `A = (0, 0, 100, 100)` and `B = (300, 0, 100,
100)`; the segment runs from `(100, 50)` to `(300, 50)`. -/
theorem circle_connection_path_witness :
    getConnectionPath ratSqrt [circleA, circleB] circleA.id circleB.id none =
      .segment ⟨.fin 100, .fin 50⟩ ⟨.fin 300, .fin 50⟩ ∧
    ∃ p q : Point ℚ,
      getConnectionPath ratSqrt [circleA, circleB] circleA.id circleB.id none =
        .segment p.toJs q.toJs ∧
      getNodeEdgePoint ratSqrt circleA (getNodeCenter circleB) = p.toJs ∧
      getNodeEdgePoint ratSqrt circleB (getNodeCenter circleA) = q.toJs ∧
      (∃ t : ℚ, 0 < t ∧
        p.x = (getNodeCenter circleA).x +
          t * ((getNodeCenter circleB).x - (getNodeCenter circleA).x) ∧
        p.y = (getNodeCenter circleA).y +
          t * ((getNodeCenter circleB).y - (getNodeCenter circleA).y)) ∧
      (∃ u : ℚ, 0 < u ∧
        q.x = (getNodeCenter circleB).x +
          u * ((getNodeCenter circleA).x - (getNodeCenter circleB).x) ∧
        q.y = (getNodeCenter circleB).y +
          u * ((getNodeCenter circleA).y - (getNodeCenter circleB).y)) ∧
      (p.x - (getNodeCenter circleA).x) ^ 2 + (p.y - (getNodeCenter circleA).y) ^ 2 =
        (min circleA.width circleA.height / 2) ^ 2 ∧
      (q.x - (getNodeCenter circleB).x) ^ 2 + (q.y - (getNodeCenter circleB).y) ^ 2 =
        (min circleB.width circleB.height / 2) ^ 2 ∧
      (p.x - (getNodeCenter circleA).x) *
          ((getNodeCenter circleB).y - (getNodeCenter circleA).y) =
        (p.y - (getNodeCenter circleA).y) *
          ((getNodeCenter circleB).x - (getNodeCenter circleA).x) ∧
      (q.x - (getNodeCenter circleA).x) *
          ((getNodeCenter circleB).y - (getNodeCenter circleA).y) =
        (q.y - (getNodeCenter circleA).y) *
          ((getNodeCenter circleB).x - (getNodeCenter circleA).x) :=
  ⟨by
    rw [getConnectionPath_edge ratSqrt [circleA, circleB] circleA circleB _ _ none
      (by simp [circleA, circleB, mkNode]) (by simp [circleA, circleB, mkNode])
      (by intro c hc; cases hc)]
    norm_num [getNodeEdgePoint, getNodeCenter, circleA, circleB, mkNode,
      ratSqrt_90000, JsNum.fin_div_fin],
   circle_connection_path ratSqrt [circleA, circleB] circleA circleB none
    (by simp [circleA, circleB, mkNode]) (by simp [circleA, circleB, mkNode])
    rfl rfl
    (by norm_num [circleA, mkNode]) (by norm_num [circleA, mkNode])
    (by norm_num [circleB, mkNode]) (by norm_num [circleB, mkNode])
    (by norm_num [getNodeCenter, circleA, circleB, mkNode])
    (by intro c hc; cases hc)
    (by norm_num [getNodeCenter, circleA, circleB, mkNode, ratSqrt_90000])⟩

/-- C10: when the `from` id or the `to` id of a connection matches no node of
the list, `getConnectionPath` and `getArrowPath` both return the empty path;
when both ids match a node, `getConnectionPath` returns a segment. -/
theorem stale_connection_paths (sqrt : K → K) (nodes : List (Node K))
    (connection : Connection K) :
    (((∀ n ∈ nodes, n.id ≠ connection.from_) ∨ (∀ n ∈ nodes, n.id ≠ connection.to_)) →
      getConnectionPath sqrt nodes connection.from_ connection.to_ (some connection) = .empty ∧
      getConnectionPath sqrt nodes connection.from_ connection.to_ none = .empty ∧
      getArrowPath sqrt nodes connection = .empty) ∧
    ((∃ n ∈ nodes, n.id = connection.from_) → (∃ n ∈ nodes, n.id = connection.to_) →
      (∃ p q, getConnectionPath sqrt nodes connection.from_ connection.to_ (some connection) =
        .segment p q) ∧
      getConnectionPath sqrt nodes connection.from_ connection.to_ (some connection) ≠
        .empty) := by
  refine ⟨?_, ?_⟩
  · intro h
    rcases h with h | h
    · have hf : nodes.find? (fun n => decide (n.id = connection.from_)) = none := by
        rw [List.find?_eq_none]
        intro n hn
        simpa using h n hn
      simp only [getConnectionPath, getArrowPath, hf, and_self]
    · have ht : nodes.find? (fun n => decide (n.id = connection.to_)) = none := by
        rw [List.find?_eq_none]
        intro n hn
        simpa using h n hn
      cases hf : nodes.find? (fun n => decide (n.id = connection.from_)) <;>
        simp only [getConnectionPath, getArrowPath, hf, ht, and_self]
  · rintro ⟨n, hn, hnid⟩ ⟨m, hm, hmid⟩
    have hf : ∃ a, nodes.find? (fun n => decide (n.id = connection.from_)) = some a := by
      cases h : nodes.find? (fun n => decide (n.id = connection.from_)) with
      | some a => exact ⟨a, rfl⟩
      | none =>
        rw [List.find?_eq_none] at h
        exact absurd (by simpa using hnid) (h n hn)
    have ht : ∃ b, nodes.find? (fun n => decide (n.id = connection.to_)) = some b := by
      cases h : nodes.find? (fun n => decide (n.id = connection.to_)) with
      | some b => exact ⟨b, rfl⟩
      | none =>
        rw [List.find?_eq_none] at h
        exact absurd (by simpa using hmid) (h m hm)
    obtain ⟨a, ha⟩ := hf
    obtain ⟨b, hb⟩ := ht
    have hseg : ∃ p q, getConnectionPath sqrt nodes connection.from_ connection.to_
        (some connection) = .segment p q := by
      cases hfh : connection.fromHandle <;> cases hth : connection.toHandle <;>
        simp only [getConnectionPath, ha, hb, Option.bind, hfh, hth] <;>
        exact ⟨_, _, rfl⟩
    refine ⟨hseg, ?_⟩
    obtain ⟨p, q, hpq⟩ := hseg
    rw [hpq]
    exact fun h => SvgPath.noConfusion h

end Geometry

section Snapping

variable {K : Type} [LinearOrderedField K]

/-! ## Nearest handle -/

/-- The two nested loops of `findNearestHandle` are one scan of the eligible
handles. -/
theorem findNearestHandle_eq_scan (sqrt : K → K) (nodes : List (Node K)) (x y : K)
    (excludeNodeId : Option String) :
    findNearestHandle sqrt nodes x y excludeNodeId =
      ((eligibleHandles nodes excludeNodeId).foldl (snapStep sqrt x y) (none, 20)).1 := by
  unfold findNearestHandle
  simp only []
  generalize ((none : Option (NearestHandle K)), (20 : K)) = init
  induction nodes generalizing init with
  | nil => rfl
  | cons n ns ih =>
    rw [List.foldl_cons, ih]
    by_cases hex : some n.id = excludeNodeId
    · simp [eligibleHandles, hex]
    · simp [eligibleHandles, hex, List.foldl_append, Handles.values, snapStep, handleDistance,
        nearestOf]

/-- The invariant of the scan: with no answer yet, the bound is still the
threshold and no scanned handle is below it; with an answer, it is the first
scanned handle of minimal distance, and that distance is below the threshold. -/
theorem snap_scan_invariant (sqrt : K → K) (x y T : K) (E : List (String × Handle K)) :
    ((E.foldl (snapStep sqrt x y) (none, T)).1 = none →
      (E.foldl (snapStep sqrt x y) (none, T)).2 = T ∧
      ∀ e ∈ E, ¬ handleDistance sqrt x y e.2 < T) ∧
    (∀ r, (E.foldl (snapStep sqrt x y) (none, T)).1 = some r →
      ∃ (i : ℕ) (e0 : String × Handle K), E[i]? = some e0 ∧ r = nearestOf e0 ∧
        (E.foldl (snapStep sqrt x y) (none, T)).2 = handleDistance sqrt x y e0.2 ∧
        handleDistance sqrt x y e0.2 < T ∧
        (∀ e ∈ E, handleDistance sqrt x y e0.2 ≤ handleDistance sqrt x y e.2) ∧
        ∀ (j : ℕ) (e : String × Handle K), j < i → E[j]? = some e →
          handleDistance sqrt x y e0.2 < handleDistance sqrt x y e.2) := by
  induction E using List.reverseRecOn with
  | nil =>
    refine ⟨fun _ => ⟨rfl, fun e he => absurd he (List.not_mem_nil e)⟩, ?_⟩
    intro r hr
    simp at hr
  | append_singleton E a ih =>
    rw [List.foldl_append, List.foldl_cons, List.foldl_nil]
    obtain ⟨ihn, ihs⟩ := ih
    generalize E.foldl (snapStep sqrt x y) (none, T) = acc at ihn ihs
    obtain ⟨res, m⟩ := acc
    simp only at ihn ihs
    have hlow : ∀ e ∈ E, m ≤ handleDistance sqrt x y e.2 := by
      intro e he
      cases res with
      | none =>
        obtain ⟨hm, hall⟩ := ihn rfl
        rw [hm]
        exact not_lt.1 (hall e he)
      | some r =>
        obtain ⟨i, e0, _, _, hm, _, hmin, _⟩ := ihs r rfl
        rw [hm]
        exact hmin e he
    have hmT : m ≤ T := by
      cases res with
      | none => exact (ihn rfl).1.le
      | some r =>
        obtain ⟨i, e0, _, _, hm, hlt, _, _⟩ := ihs r rfl
        rw [hm]
        exact hlt.le
    by_cases hstep : handleDistance sqrt x y a.2 < m
    · rw [show snapStep sqrt x y (res, m) a =
        (some (nearestOf a), handleDistance sqrt x y a.2) from if_pos hstep]
      refine ⟨fun h => Option.noConfusion h, ?_⟩
      intro r hr
      refine ⟨E.length, a, by simp, ?_, rfl, lt_of_lt_of_le hstep hmT, ?_, ?_⟩
      · exact (Option.some.inj hr).symm
      · intro e he
        rcases List.mem_append.1 he with h | h
        · exact (lt_of_lt_of_le hstep (hlow e h)).le
        · rw [List.mem_singleton.1 h]
      · intro j e hj hje
        rw [List.getElem?_append_left hj] at hje
        exact lt_of_lt_of_le hstep (hlow e (List.getElem?_mem hje))
    · rw [show snapStep sqrt x y (res, m) a = (res, m) from if_neg hstep]
      have hge : m ≤ handleDistance sqrt x y a.2 := not_lt.1 hstep
      refine ⟨?_, ?_⟩
      · intro hnone
        obtain ⟨hm, hall⟩ := ihn hnone
        refine ⟨hm, ?_⟩
        intro e he
        rcases List.mem_append.1 he with h | h
        · exact hall e h
        · rw [List.mem_singleton.1 h, ← hm]
          exact hstep
      · intro r hr
        obtain ⟨i, e0, hi, hre, hm, hlt, hmin, hfirst⟩ := ihs r hr
        have hilt : i < E.length := by
          by_contra hcon
          rw [List.getElem?_eq_none (not_lt.1 hcon)] at hi
          exact Option.noConfusion hi
        refine ⟨i, e0, ?_, hre, hm, hlt, ?_, ?_⟩
        · rw [List.getElem?_append_left hilt]
          exact hi
        · intro e he
          rcases List.mem_append.1 he with h | h
          · exact hmin e h
          · rw [List.mem_singleton.1 h, ← hm]
            exact hge
        · intro j e hj hje
          rw [List.getElem?_append_left (lt_trans hj hilt)] at hje
          exact hfirst j e hj hje

/-- C8: `findNearestHandle` returns none exactly when no eligible handle (a
handle of a node whose id is not the excluded one) is at distance strictly
below 20 from `(x, y)`; otherwise it returns the node id, handle id and
coordinates of an eligible handle below 20 whose distance is minimal among all
eligible handles and strictly smaller than that of every eligible handle
scanned before it (nodes in list order, handles top, right, bottom, left). -/
theorem findNearestHandle_spec (sqrt : K → K) (nodes : List (Node K)) (x y : K)
    (excludeNodeId : Option String) :
    (∀ e : String × Handle K, e ∈ eligibleHandles nodes excludeNodeId ↔
      ∃ n ∈ nodes, some n.id ≠ excludeNodeId ∧ e.1 = n.id ∧
        (e.2 = (getNodeHandles n).top ∨ e.2 = (getNodeHandles n).right ∨
          e.2 = (getNodeHandles n).bottom ∨ e.2 = (getNodeHandles n).left)) ∧
    (findNearestHandle sqrt nodes x y excludeNodeId = none ↔
      ∀ e ∈ eligibleHandles nodes excludeNodeId, ¬ handleDistance sqrt x y e.2 < 20) ∧
    (∀ r, findNearestHandle sqrt nodes x y excludeNodeId = some r →
      ∃ (i : ℕ) (e0 : String × Handle K),
        (eligibleHandles nodes excludeNodeId)[i]? = some e0 ∧
        r = { nodeId := e0.1, handleId := e0.2.id, x := e0.2.x, y := e0.2.y, id := e0.2.id } ∧
        handleDistance sqrt x y e0.2 < 20 ∧
        (∀ e ∈ eligibleHandles nodes excludeNodeId,
          handleDistance sqrt x y e0.2 ≤ handleDistance sqrt x y e.2) ∧
        ∀ (j : ℕ) (e : String × Handle K), j < i →
          (eligibleHandles nodes excludeNodeId)[j]? = some e →
          handleDistance sqrt x y e0.2 < handleDistance sqrt x y e.2) := by
  obtain ⟨hnone, hsome⟩ :=
    snap_scan_invariant sqrt x y 20 (eligibleHandles nodes excludeNodeId)
  rw [findNearestHandle_eq_scan]
  refine ⟨?_, ⟨fun h => (hnone h).2, ?_⟩, ?_⟩
  · intro e
    obtain ⟨id, h⟩ := e
    simp only [eligibleHandles, List.mem_flatMap, List.mem_filter, decide_eq_true_eq,
      List.mem_cons, Prod.mk.injEq, List.mem_singleton, List.not_mem_nil, or_false]
    constructor
    · rintro ⟨n, ⟨hn, hex⟩, hcase⟩
      refine ⟨n, hn, hex, ?_⟩
      rcases hcase with h | h | h | h
      · exact ⟨h.1, Or.inl h.2⟩
      · exact ⟨h.1, Or.inr (Or.inl h.2)⟩
      · exact ⟨h.1, Or.inr (Or.inr (Or.inl h.2))⟩
      · exact ⟨h.1, Or.inr (Or.inr (Or.inr h.2))⟩
    · rintro ⟨n, hn, hex, hid, hcase⟩
      refine ⟨n, ⟨hn, hex⟩, ?_⟩
      rcases hcase with h | h | h | h
      · exact Or.inl ⟨hid, h⟩
      · exact Or.inr (Or.inl ⟨hid, h⟩)
      · exact Or.inr (Or.inr (Or.inl ⟨hid, h⟩))
      · exact Or.inr (Or.inr (Or.inr ⟨hid, h⟩))
  · intro hall
    cases hres : ((eligibleHandles nodes excludeNodeId).foldl (snapStep sqrt x y) (none, 20)).1 with
    | none => rfl
    | some r =>
      obtain ⟨i, e0, hi, _, _, hlt, _, _⟩ := hsome r hres
      exact absurd hlt (hall e0 (List.getElem?_mem hi))
  · intro r hr
    obtain ⟨i, e0, hi, hre, _, hlt, hmin, hfirst⟩ := hsome r hr
    exact ⟨i, e0, hi, hre, hlt, hmin, hfirst⟩

end Snapping

section Viewport

variable {K : Type} [LinearOrderedField K]

/-! ## Zooming with the wheel -/

/-- The view box after a wheel event: scaled by the step, with the origin
moved so that the point under the mouse stays. -/
theorem handleWheel_viewBox (rect : Bounds K) (s : State K) (e : MouseEvent K) :
    (handleWheel rect s e).viewBox =
      { x := (e.clientX - rect.left) * (s.viewBox.width / rect.width) + s.viewBox.x -
          (e.clientX - rect.left) *
            (s.viewBox.width * (if e.deltaY > 0 then 11 / 10 else 9 / 10) / rect.width),
        y := (e.clientY - rect.top) * (s.viewBox.height / rect.height) + s.viewBox.y -
          (e.clientY - rect.top) *
            (s.viewBox.height * (if e.deltaY > 0 then 11 / 10 else 9 / 10) / rect.height),
        width := s.viewBox.width * (if e.deltaY > 0 then 11 / 10 else 9 / 10),
        height := s.viewBox.height * (if e.deltaY > 0 then 11 / 10 else 9 / 10) } := rfl

/-- C11: after `handleWheel` the logical point under the mouse (mouse offset
times new view box size over bounds size, plus new view box origin) is the one
that was under the mouse before, in either wheel direction and whatever the
zoom factor of the state (clamped or not). -/
theorem handleWheel_keeps_point (rect : Bounds K) (s : State K) (e : MouseEvent K) :
    (e.clientX - rect.left) * ((handleWheel rect s e).viewBox.width / rect.width) +
        (handleWheel rect s e).viewBox.x =
      (e.clientX - rect.left) * (s.viewBox.width / rect.width) + s.viewBox.x ∧
    (e.clientY - rect.top) * ((handleWheel rect s e).viewBox.height / rect.height) +
        (handleWheel rect s e).viewBox.y =
      (e.clientY - rect.top) * (s.viewBox.height / rect.height) + s.viewBox.y ∧
    screenToSvg (some rect) (handleWheel rect s e).viewBox e.clientX e.clientY =
      screenToSvg (some rect) s.viewBox e.clientX e.clientY := by
  rw [handleWheel_viewBox]
  refine ⟨by ring, by ring, ?_⟩
  simp only [screenToSvg, Point.mk.injEq]
  exact ⟨by ring, by ring⟩

/-- C12, as the code has it: a zoom-in step (`deltaY ≤ 0`, factor 0.9) followed
by a zoom-out step (`deltaY > 0`, factor 1.1) at the same screen point gives a
view box of 0.99 times the original width and height, whose origin keeps the
logical point under that screen point where it was. -/
theorem zoom_in_then_out (rect : Bounds K) (s : State K) (e1 e2 : MouseEvent K)
    (h1 : e1.deltaY ≤ 0) (h2 : 0 < e2.deltaY)
    (hx : e2.clientX = e1.clientX) (hy : e2.clientY = e1.clientY) :
    (handleWheel rect (handleWheel rect s e1) e2).viewBox.width =
      99 / 100 * s.viewBox.width ∧
    (handleWheel rect (handleWheel rect s e1) e2).viewBox.height =
      99 / 100 * s.viewBox.height ∧
    (handleWheel rect (handleWheel rect s e1) e2).viewBox.x =
      s.viewBox.x + (e1.clientX - rect.left) * (s.viewBox.width / rect.width) * (1 / 100) ∧
    (handleWheel rect (handleWheel rect s e1) e2).viewBox.y =
      s.viewBox.y + (e1.clientY - rect.top) * (s.viewBox.height / rect.height) * (1 / 100) ∧
    screenToSvg (some rect) (handleWheel rect (handleWheel rect s e1) e2).viewBox
        e1.clientX e1.clientY =
      screenToSvg (some rect) s.viewBox e1.clientX e1.clientY := by
  have hin : ¬ e1.deltaY > 0 := not_lt.2 h1
  have hout : e2.deltaY > 0 := h2
  rw [handleWheel_viewBox, handleWheel_viewBox]
  simp only [if_neg hin, if_pos hout, hx, hy, screenToSvg, Point.mk.injEq]
  refine ⟨by ring, by ring, by ring, by ring, by ring, by ring⟩

/-- Witness of C12 as amended: the default view box on the 1200 × 800 canvas,
zoomed in and out at the screen point `(600, 400)`. -/
theorem zoom_in_then_out_witness :
    (mkEvent 600 400 (-100)).deltaY ≤ 0 ∧ 0 < (mkEvent 600 400 100).deltaY ∧
    (handleWheel canvasBounds (handleWheel canvasBounds State.initial (mkEvent 600 400 (-100)))
        (mkEvent 600 400 100)).viewBox.width = 99 / 100 * (State.initial : State ℚ).viewBox.width ∧
    (handleWheel canvasBounds (handleWheel canvasBounds State.initial (mkEvent 600 400 (-100)))
        (mkEvent 600 400 100)).viewBox.height =
      99 / 100 * (State.initial : State ℚ).viewBox.height :=
  ⟨by norm_num [mkEvent], by norm_num [mkEvent],
    (zoom_in_then_out canvasBounds State.initial (mkEvent 600 400 (-100)) (mkEvent 600 400 100)
      (by norm_num [mkEvent]) (by norm_num [mkEvent]) rfl rfl).1,
    (zoom_in_then_out canvasBounds State.initial (mkEvent 600 400 (-100)) (mkEvent 600 400 100)
      (by norm_num [mkEvent]) (by norm_num [mkEvent]) rfl rfl).2.1⟩

/-- Counterexample to C12: on the 1200 × 800 canvas, zooming the default view
box `(0, 0, 1200, 800)` in and then out at the screen point `(600, 400)` gives
the view box `(6, 4, 1188, 792)`, not the original one. -/
theorem zoom_in_then_out_not_restored :
    (mkEvent 600 400 (-100)).deltaY ≤ 0 ∧ 0 < (mkEvent 600 400 100).deltaY ∧
    (handleWheel canvasBounds (handleWheel canvasBounds State.initial (mkEvent 600 400 (-100)))
        (mkEvent 600 400 100)).viewBox = { x := 6, y := 4, width := 1188, height := 792 } ∧
    (handleWheel canvasBounds (handleWheel canvasBounds State.initial (mkEvent 600 400 (-100)))
        (mkEvent 600 400 100)).viewBox ≠ (State.initial : State ℚ).viewBox := by
  have h : (handleWheel canvasBounds
      (handleWheel canvasBounds State.initial (mkEvent 600 400 (-100)))
        (mkEvent 600 400 100)).viewBox = { x := 6, y := 4, width := 1188, height := 792 } := by
    rw [handleWheel_viewBox, handleWheel_viewBox]
    norm_num [mkEvent, canvasBounds, State.initial]
  refine ⟨by norm_num [mkEvent], by norm_num [mkEvent], h, ?_⟩
  rw [h]
  norm_num [State.initial]

/-! ## Fitting the view to the nodes -/

/-- The value `Math.min(a, ...rest)` is below every argument and is one of
them. -/
theorem mathMin_spec (a : K) (rest : List K) :
    (∀ v ∈ a :: rest, mathMin a rest ≤ v) ∧ mathMin a rest ∈ a :: rest := by
  induction rest generalizing a with
  | nil => exact ⟨fun v hv => by rw [List.mem_singleton.1 hv]; exact le_refl _, List.mem_singleton.2 rfl⟩
  | cons b l ih =>
    have hstep : mathMin a (b :: l) = mathMin (if a ≤ b then a else b) l := rfl
    rw [hstep]
    obtain ⟨hle, hmem⟩ := ih (if a ≤ b then a else b)
    have hm : (if a ≤ b then a else b) ≤ a ∧ (if a ≤ b then a else b) ≤ b := by
      split_ifs with h
      · exact ⟨le_refl _, h⟩
      · exact ⟨(not_le.1 h).le, le_refl _⟩
    have h0 := hle _ (List.mem_cons_self _ _)
    refine ⟨?_, ?_⟩
    · intro v hv
      rcases List.mem_cons.1 hv with h | h
      · rw [h]; exact le_trans h0 hm.1
      · rcases List.mem_cons.1 h with h | h
        · rw [h]; exact le_trans h0 hm.2
        · exact hle v (List.mem_cons_of_mem _ h)
    · rcases List.mem_cons.1 hmem with h | h
      · rw [h]
        split_ifs
        · exact List.mem_cons_self _ _
        · exact List.mem_cons_of_mem _ (List.mem_cons_self _ _)
      · exact List.mem_cons_of_mem _ (List.mem_cons_of_mem _ h)

/-- The value `Math.max(a, ...rest)` is above every argument and is one of
them. -/
theorem mathMax_spec (a : K) (rest : List K) :
    (∀ v ∈ a :: rest, v ≤ mathMax a rest) ∧ mathMax a rest ∈ a :: rest := by
  induction rest generalizing a with
  | nil => exact ⟨fun v hv => by rw [List.mem_singleton.1 hv]; exact le_refl _, List.mem_singleton.2 rfl⟩
  | cons b l ih =>
    have hstep : mathMax a (b :: l) = mathMax (if a ≤ b then b else a) l := rfl
    rw [hstep]
    obtain ⟨hle, hmem⟩ := ih (if a ≤ b then b else a)
    have hm : a ≤ (if a ≤ b then b else a) ∧ b ≤ (if a ≤ b then b else a) := by
      split_ifs with h
      · exact ⟨h, le_refl _⟩
      · exact ⟨le_refl _, (not_le.1 h).le⟩
    have h0 := hle _ (List.mem_cons_self _ _)
    refine ⟨?_, ?_⟩
    · intro v hv
      rcases List.mem_cons.1 hv with h | h
      · rw [h]; exact le_trans hm.1 h0
      · rcases List.mem_cons.1 h with h | h
        · rw [h]; exact le_trans hm.2 h0
        · exact hle v (List.mem_cons_of_mem _ h)
    · rcases List.mem_cons.1 hmem with h | h
      · rw [h]
        split_ifs
        · exact List.mem_cons_of_mem _ (List.mem_cons_self _ _)
        · exact List.mem_cons_self _ _
      · exact List.mem_cons_of_mem _ (List.mem_cons_of_mem _ h)

/-- A positive value over a finite one is finite or `Infinity`, never `NaN`. -/
theorem JsNum.pos_div_cases {a : K} (ha : 0 < a) (b : K) :
    (b = 0 ∧ (JsNum.fin a / JsNum.fin b : JsNum K) = JsNum.posInf) ∨
    (b ≠ 0 ∧ (JsNum.fin a / JsNum.fin b : JsNum K) = JsNum.fin (a / b)) := by
  by_cases hb : b = 0
  · left
    refine ⟨hb, ?_⟩
    rw [JsNum.fin_div_fin, if_pos hb, if_neg ha.ne', if_pos ha]
  · right
    exact ⟨hb, JsNum.fin_div_fin_of_ne a hb⟩

/-- The state after `fitToCanvas` on a non-empty node list. -/
theorem fitToCanvas_cons (rect : Bounds K) (s : State K) (n : Node K) (ns : List (Node K))
    (hs : s.nodes = n :: ns) :
    (fitToCanvas rect s).viewBox =
      { x := mathMin n.x (ns.map (fun n => n.x)) - 50,
        y := mathMin n.y (ns.map (fun n => n.y)) - 50,
        width := mathMax (n.x + n.width) (ns.map (fun n => n.x + n.width)) + 50 -
          (mathMin n.x (ns.map (fun n => n.x)) - 50),
        height := mathMax (n.y + n.height) (ns.map (fun n => n.y + n.height)) + 50 -
          (mathMin n.y (ns.map (fun n => n.y)) - 50) } ∧
    (fitToCanvas rect s).zoom =
      JsNum.min (JsNum.min
        (JsNum.fin rect.width / JsNum.fin (fitToCanvas rect s).viewBox.width)
        (JsNum.fin rect.height / JsNum.fin (fitToCanvas rect s).viewBox.height))
        (JsNum.fin 1) := by
  simp only [fitToCanvas, hs, and_self]

/-- The minimum of a finite or infinite positive quotient pair with one is
finite and at most one. -/
theorem JsNum.min_scale_le_one {a b : K} (ha : 0 < a) (hb : 0 < b) (c d : K) :
    ∃ z : K, JsNum.min (JsNum.min (JsNum.fin a / JsNum.fin c) (JsNum.fin b / JsNum.fin d))
        (JsNum.fin 1) = JsNum.fin z ∧ z ≤ 1 ∧
      (c ≠ 0 → d ≠ 0 → z = Min.min (Min.min (a / c) (b / d)) 1) := by
  rcases JsNum.pos_div_cases ha c with ⟨hc, h1⟩ | ⟨hc, h1⟩ <;>
    rcases JsNum.pos_div_cases hb d with ⟨hd, h2⟩ | ⟨hd, h2⟩ <;>
    rw [h1, h2]
  · exact ⟨1, rfl, le_refl _, fun h => absurd hc h⟩
  · refine ⟨if b / d ≤ 1 then b / d else 1, rfl, ?_, fun h => absurd hc h⟩
    split_ifs with h
    · exact h
    · exact le_refl _
  · refine ⟨if a / c ≤ 1 then a / c else 1, rfl, ?_, fun _ h => absurd hd h⟩
    split_ifs with h
    · exact h
    · exact le_refl _
  · refine ⟨if (if a / c ≤ b / d then a / c else b / d) ≤ 1
      then (if a / c ≤ b / d then a / c else b / d) else 1, rfl, ?_, ?_⟩
    · split_ifs <;> first | assumption | exact le_refl _
    · intro _ _
      simp only [min_def]

/-- C13: for an empty node list `fitToCanvas` changes nothing; otherwise the
new view box is the bounding box of the node rectangles widened by 50 on each
side (its left and top edges are 50 before the least `x` and `y`, its right
and bottom edges 50 after the greatest `x + width` and `y + height`, each of
them reached by some node), so every node rectangle lies in it with a margin
of 50, and the new zoom is `min(bounds.width / boxWidth, bounds.height /
boxHeight, 1)`, a finite value that is at most 1. -/
theorem fitToCanvas_bounding_box (rect : Bounds K) (s : State K) :
    (s.nodes = [] → fitToCanvas rect s = s) ∧
    (s.nodes ≠ [] →
      (∀ n ∈ s.nodes, (fitToCanvas rect s).viewBox.x + 50 ≤ n.x) ∧
      (∃ n ∈ s.nodes, n.x = (fitToCanvas rect s).viewBox.x + 50) ∧
      (∀ n ∈ s.nodes, (fitToCanvas rect s).viewBox.y + 50 ≤ n.y) ∧
      (∃ n ∈ s.nodes, n.y = (fitToCanvas rect s).viewBox.y + 50) ∧
      (∀ n ∈ s.nodes, n.x + n.width + 50 ≤
        (fitToCanvas rect s).viewBox.x + (fitToCanvas rect s).viewBox.width) ∧
      (∃ n ∈ s.nodes, n.x + n.width + 50 =
        (fitToCanvas rect s).viewBox.x + (fitToCanvas rect s).viewBox.width) ∧
      (∀ n ∈ s.nodes, n.y + n.height + 50 ≤
        (fitToCanvas rect s).viewBox.y + (fitToCanvas rect s).viewBox.height) ∧
      (∃ n ∈ s.nodes, n.y + n.height + 50 =
        (fitToCanvas rect s).viewBox.y + (fitToCanvas rect s).viewBox.height) ∧
      (fitToCanvas rect s).zoom =
        JsNum.min (JsNum.min
          (JsNum.fin rect.width / JsNum.fin (fitToCanvas rect s).viewBox.width)
          (JsNum.fin rect.height / JsNum.fin (fitToCanvas rect s).viewBox.height))
          (JsNum.fin 1) ∧
      ∃ z : K, (fitToCanvas rect s).zoom = JsNum.fin z ∧ z ≤ 1 ∧
        ((fitToCanvas rect s).viewBox.width ≠ 0 → (fitToCanvas rect s).viewBox.height ≠ 0 →
          z = min (min (rect.width / (fitToCanvas rect s).viewBox.width)
            (rect.height / (fitToCanvas rect s).viewBox.height)) 1)) := by
  refine ⟨fun h => by simp only [fitToCanvas, h], ?_⟩
  intro hne
  cases hs : s.nodes with
  | nil => exact absurd hs hne
  | cons n ns =>
    obtain ⟨hvb, hzoom⟩ := fitToCanvas_cons rect s n ns hs
    have key : ∀ (f : Node K → K),
        (∀ m ∈ n :: ns, mathMin (f n) (ns.map f) ≤ f m) ∧
        (∃ m ∈ n :: ns, f m = mathMin (f n) (ns.map f)) ∧
        (∀ m ∈ n :: ns, f m ≤ mathMax (f n) (ns.map f)) ∧
        (∃ m ∈ n :: ns, f m = mathMax (f n) (ns.map f)) := by
      intro f
      obtain ⟨hmin, hminmem⟩ := mathMin_spec (f n) (ns.map f)
      obtain ⟨hmax, hmaxmem⟩ := mathMax_spec (f n) (ns.map f)
      have hmap : ∀ m ∈ n :: ns, f m ∈ f n :: ns.map f := by
        intro m hm
        rcases List.mem_cons.1 hm with h | h
        · rw [h]; exact List.mem_cons_self _ _
        · exact List.mem_cons_of_mem _ (List.mem_map_of_mem f h)
      have hback : ∀ v ∈ f n :: ns.map f, ∃ m ∈ n :: ns, f m = v := by
        intro v hv
        rcases List.mem_cons.1 hv with h | h
        · exact ⟨n, List.mem_cons_self _ _, h.symm⟩
        · obtain ⟨m, hm, hfm⟩ := List.mem_map.1 h
          exact ⟨m, List.mem_cons_of_mem _ hm, hfm⟩
      exact ⟨fun m hm => hmin _ (hmap m hm), hback _ hminmem,
        fun m hm => hmax _ (hmap m hm), hback _ hmaxmem⟩
    obtain ⟨hx1, hx2, -, -⟩ := key (fun n => n.x)
    obtain ⟨hy1, hy2, -, -⟩ := key (fun n => n.y)
    obtain ⟨-, -, hw1, hw2⟩ := key (fun n => n.x + n.width)
    obtain ⟨-, -, hh1, hh2⟩ := key (fun n => n.y + n.height)
    refine ⟨?_, ?_, ?_, ?_, ?_, ?_, ?_, ?_, hzoom, ?_⟩
    · intro m hm
      rw [hvb]
      have := hx1 m hm
      simp only at this ⊢
      linarith
    · obtain ⟨m, hm, h⟩ := hx2
      refine ⟨m, hm, ?_⟩
      rw [hvb]
      simp only at h ⊢
      linarith
    · intro m hm
      rw [hvb]
      have := hy1 m hm
      simp only at this ⊢
      linarith
    · obtain ⟨m, hm, h⟩ := hy2
      refine ⟨m, hm, ?_⟩
      rw [hvb]
      simp only at h ⊢
      linarith
    · intro m hm
      rw [hvb]
      have := hw1 m hm
      simp only at this ⊢
      linarith
    · obtain ⟨m, hm, h⟩ := hw2
      refine ⟨m, hm, ?_⟩
      rw [hvb]
      simp only at h ⊢
      linarith
    · intro m hm
      rw [hvb]
      have := hh1 m hm
      simp only at this ⊢
      linarith
    · obtain ⟨m, hm, h⟩ := hh2
      refine ⟨m, hm, ?_⟩
      rw [hvb]
      simp only at h ⊢
      linarith
    · rw [hzoom]
      exact JsNum.min_scale_le_one rect.width_pos rect.height_pos _ _

end Viewport

section Json

variable {K : Type}

/-! ## JSON values of nodes and handles -/

/-- The JSON value of a handle field determines the field. -/
theorem handleToJs_injective {a b : Option HandleId}
    (h : (handleToJs a : JsVal K) = handleToJs b) : a = b := by
  cases a with
  | none =>
    cases b with
    | none => rfl
    | some y => simp [handleToJs] at h
  | some x =>
    cases b with
    | none => simp [handleToJs] at h
    | some y =>
      cases x <;> cases y <;> first | rfl | (simp [handleToJs, HandleId.toString] at h)

/-- The JSON value of a node determines the node. -/
theorem nodeToJs_injective : Function.Injective (Node.toJs : Node K → JsVal K) := by
  intro n m h
  cases n
  cases m
  simp only [Node.toJs, JsVal.obj.injEq, List.cons.injEq, Prod.mk.injEq, JsVal.str.injEq,
    JsVal.num.injEq, true_and, and_true] at h
  simp only [Node.mk.injEq]
  tauto

/-- The JSON value of a connection determines the connection. -/
theorem connectionToJs_injective :
    Function.Injective (Connection.toJs : Connection K → JsVal K) := by
  intro c d h
  cases c
  cases d
  simp only [Connection.toJs, JsVal.obj.injEq, List.cons.injEq, Prod.mk.injEq, JsVal.str.injEq,
    JsVal.num.injEq, true_and, and_true] at h
  obtain ⟨h1, h2, h3, h4, h5, h6, h7, h8⟩ := h
  have h4' := handleToJs_injective h4
  have h5' := handleToJs_injective h5
  simp only [Connection.mk.injEq]
  exact ⟨h1, h2, h3, h4', h5', h6, h7, h8⟩

end Json

section ImportExport

variable {K : Type} [LinearOrderedField K]

/-! ## Import -/

/-- The guard of the import handler is a truthiness test: the payload is
rejected, showing the format error and leaving the four cells as they were,
when `data` is missing or falsy or `data.nodes` is missing or falsy; with a
truthy `data.nodes` the four setters run on `data.nodes`, `data.connections`
or the empty array, the name or `Imported Flowchart`, and null. -/
theorem importFlowchart_guard (cells : ImportCells K) (importData : JsVal K) :
    ((∀ data nodes, importData.get "data" = some data → data.truthy = true →
        data.get "nodes" = some nodes → nodes.truthy = false) →
      importFlowchart cells importData = (cells, true)) ∧
    (∀ data nodes, importData.get "data" = some data → data.truthy = true →
        data.get "nodes" = some nodes → nodes.truthy = true →
      importFlowchart cells importData =
        ({ nodes := nodes,
           connections := JsVal.orElse (data.get "connections") (.arr []),
           flowchartName := JsVal.orElse (importData.get "name") (.str "Imported Flowchart"),
           currentFlowchartId := none }, false)) := by
  constructor
  · intro h
    cases importData with
    | obj fields =>
      simp only [importFlowchart]
      cases hd : (JsVal.obj fields).get "data" with
      | none => rfl
      | some data =>
        simp only
        by_cases hdt : data.truthy = true
        · rw [if_pos hdt]
          cases hn : data.get "nodes" with
          | none => rfl
          | some nodes =>
            simp only
            have := h data nodes hd hdt hn
            rw [this]
            rfl
        · rw [if_neg hdt]
    | null => rfl
    | bool b => rfl
    | num v => rfl
    | str t => rfl
    | arr items => rfl
  · intro data nodes hd hdt hn hnt
    cases importData with
    | obj fields =>
      simp only [importFlowchart, hd, hdt, hn, hnt, if_true]
    | null => simp [JsVal.get] at hd
    | bool b => simp [JsVal.get] at hd
    | num v => simp [JsVal.get] at hd
    | str t => simp [JsVal.get] at hd
    | arr items => simp [JsVal.get] at hd

/-- C14, evaluated: the payload `{ data: { nodes: "abc" } }`, whose
`data.nodes` is a string and not an array, is not rejected: no format error is
shown and the node cell becomes the string `abc`. -/
theorem import_accepts_string_nodes :
    stringNodesPayload.get "data" = some (.obj [("nodes", .str "abc")]) ∧
    (JsVal.obj [("nodes", JsVal.str "abc")] : JsVal ℚ).get "nodes" = some (.str "abc") ∧
    importFlowchart (State.initial : State ℚ).importCells stringNodesPayload =
      ({ nodes := .str "abc", connections := .arr [],
         flowchartName := .str "Imported Flowchart", currentFlowchartId := none }, false) ∧
    (importFlowchart (State.initial : State ℚ).importCells stringNodesPayload).1.nodes ≠
      (State.initial : State ℚ).importCells.nodes := by
  have h : importFlowchart (State.initial : State ℚ).importCells stringNodesPayload =
      ({ nodes := .str "abc", connections := .arr [],
         flowchartName := .str "Imported Flowchart", currentFlowchartId := none }, false) := by
    simp [importFlowchart, stringNodesPayload, JsVal.get, List.lookup, JsVal.truthy,
      JsVal.orElse]
  refine ⟨by simp [stringNodesPayload, JsVal.get, List.lookup],
    by simp [JsVal.get, List.lookup], h, ?_⟩
  rw [h]
  simp [State.importCells, State.initial]

/-! ## Export then import -/

/-- The import handler on the exported document of any cells whose nodes and
connections are truthy. -/
theorem import_export_cells (prior cells : ImportCells K) (exportedAt : String)
    (hn : cells.nodes.truthy = true) (hc : cells.connections.truthy = true) :
    importFlowchart prior (exportFlowchart cells exportedAt) =
      ({ nodes := cells.nodes, connections := cells.connections,
         flowchartName := JsVal.orElse (some cells.flowchartName) (.str "Imported Flowchart"),
         currentFlowchartId := none }, false) := by
  have hobj : ∀ f : List (String × JsVal K), (JsVal.obj f).truthy = true := fun _ => rfl
  simp [importFlowchart, exportFlowchart, JsVal.get, List.lookup, JsVal.orElse, hn, hc, hobj]

/-- C15: importing the document that `exportFlowchart` builds from a scene sets
the node cell and the connection cell to exactly the exported arrays, without
format error, whatever the cells held before; a state with these cells has the
same nodes and the same connections, field by field and in the same order. -/
theorem export_import_roundtrip (s : State K) (prior : ImportCells K) (exportedAt : String) :
    (importFlowchart prior (exportFlowchart s.importCells exportedAt)).2 = false ∧
    (importFlowchart prior (exportFlowchart s.importCells exportedAt)).1.nodes =
      .arr (s.nodes.map Node.toJs) ∧
    (importFlowchart prior (exportFlowchart s.importCells exportedAt)).1.connections =
      .arr (s.connections.map Connection.toJs) ∧
    (∀ s2 : State K,
      s2.importCells.nodes =
        (importFlowchart prior (exportFlowchart s.importCells exportedAt)).1.nodes →
      s2.importCells.connections =
        (importFlowchart prior (exportFlowchart s.importCells exportedAt)).1.connections →
      s2.nodes = s.nodes ∧ s2.connections = s.connections) := by
  rw [import_export_cells prior s.importCells exportedAt rfl rfl]
  refine ⟨rfl, rfl, rfl, ?_⟩
  intro s2 h1 h2
  simp only [State.importCells, JsVal.arr.injEq] at h1 h2
  exact ⟨List.map_injective_iff.2 nodeToJs_injective h1,
    List.map_injective_iff.2 connectionToJs_injective h2⟩

/-- The import handler on a well-formed payload makes the four setter calls of
`importDocument`. -/
theorem importFlowchart_document (s : State K) (d : FlowchartDocument K) :
    importFlowchart s.importCells d.toJs = ((importDocument s d).importCells, false) := by
  obtain ⟨name, nodes, connections⟩ := d
  cases name with
  | none =>
    cases connections <;>
      simp [importFlowchart, FlowchartDocument.toJs, JsVal.get, List.lookup, JsVal.truthy,
        JsVal.orElse, importDocument, State.importCells]
  | some name =>
    by_cases hname : name = ""
    · cases connections <;>
        simp [importFlowchart, FlowchartDocument.toJs, JsVal.get, List.lookup, JsVal.truthy,
          JsVal.orElse, importDocument, State.importCells, hname]
    · cases connections <;>
        simp [importFlowchart, FlowchartDocument.toJs, JsVal.get, List.lookup, JsVal.truthy,
          JsVal.orElse, importDocument, State.importCells, hname]

/-! ## Node ids -/

/-- C16, evaluated: from the initial state, importing a document whose one
node has the id `node-1` and then calling `createNode` gives two nodes with the
id `node-1`: the import leaves `nodeIdCounter` at 1. -/
theorem import_then_create_duplicates_id :
    (oneNodeDocument.nodes.map (fun n => n.id)).Nodup ∧
    importFlowchart (State.initial : State ℚ).importCells oneNodeDocument.toJs =
      ((importDocument State.initial oneNodeDocument).importCells, false) ∧
    (importDocument (State.initial : State ℚ) oneNodeDocument).nodeIdCounter = 1 ∧
    ∃ s2 : State ℚ,
      createNode (importDocument State.initial oneNodeDocument) "rectangle" 0 0 = some s2 ∧
      s2.nodes.map (fun n => n.id) = ["node-1", "node-1"] ∧
      ¬ (s2.nodes.map (fun n => n.id)).Nodup := by
  refine ⟨by simp [oneNodeDocument], importFlowchart_document _ _, rfl, ?_⟩
  refine ⟨_, rfl, ?_, ?_⟩
  · simp [importDocument, oneNodeDocument, rectNode, mkNode, State.initial]
    rfl
  · simp [importDocument, oneNodeDocument, rectNode, mkNode, State.initial]
    rfl

/-! ## Node sizes -/

/-- C17, evaluated: from the initial state, creating a rectangle and typing
`10` into the width input of the property panel stores the width 10, below 30;
typing `-5` into the height input stores the height -5. -/
theorem width_edit_below_minimum :
    ∃ s1 : State ℚ, createNode State.initial "rectangle" 100 100 = some s1 ∧
      s1.nodes.map (fun n => (n.id, n.width, n.height)) = [("node-1", 120, 60)] ∧
      (editWidth s1 "node-1" (some 10)).nodes.map (fun n => (n.id, n.width, n.height)) =
        [("node-1", 10, 60)] ∧
      (editHeight s1 "node-1" (some (-5))).nodes.map (fun n => (n.id, n.width, n.height)) =
        [("node-1", 120, -5)] ∧
      ¬ (∀ n ∈ (editWidth s1 "node-1" (some 10)).nodes, 30 ≤ n.width ∧ 30 ≤ n.height) := by
  have hid : "node-" ++ toString (1 : ℕ) = "node-1" := by decide
  refine ⟨_, rfl, ?_, ?_, ?_, ?_⟩
  · simp [State.initial, nodeTypes, hid]
  · simp [State.initial, nodeTypes, hid, editWidth, updateNode, Node.update, sizeInput]
  · simp [State.initial, nodeTypes, hid, editHeight, updateNode, Node.update, sizeInput]
  · simp [State.initial, nodeTypes, hid, editWidth, updateNode, Node.update, sizeInput]
    norm_num

end ImportExport

section GestureFrames

variable {K : Type}

/-! ## Frames of the gesture flags -/

/-- The invariant depends on the gesture view only. -/
theorem GestureInv_congr {held : Bool} {s t : State K} (h : gestureView t = gestureView s)
    (hs : GestureInv held s) : GestureInv held t := by
  simp only [gestureView, Prod.mk.injEq] at h
  obtain ⟨h1, h2, h3, h4, h5, h6, h7⟩ := h
  unfold GestureInv atMostOneGesture at *
  rw [h1, h2, h3, h4, h5, h6, h7]
  exact hs

/-- The operation `updateNode` keeps the gesture view. -/
theorem gestureView_updateNode (s : State K) (id : String) (updates : NodeUpdates K) :
    gestureView (updateNode s id updates) = gestureView s := by
  simp only [gestureView, updateNode, List.map_map, Prod.mk.injEq, true_and]
  apply List.map_congr_left
  intro n _
  simp only [Function.comp]
  split_ifs <;> rfl

/-- The operation `finishTextEdit` keeps the gesture view. -/
theorem gestureView_finishTextEdit (s : State K) :
    gestureView (finishTextEdit s) = gestureView s := by
  unfold finishTextEdit
  split
  · split_ifs
    · exact gestureView_updateNode s _ _
    · rfl
  · rfl

/-- The invariant while no button is held gives the invariant while one is. -/
theorem GestureInv_held {s : State K} (h : GestureInv false s) : GestureInv true s := by
  obtain ⟨h1, h2, h3, -, h5⟩ := h
  exact ⟨h1, h2, h3, fun hf => Bool.noConfusion hf, h5⟩

end GestureFrames

section Gestures

variable {K : Type} [LinearOrderedField K]

/-! ## Arrow heads -/

/-- C20, evaluated: for the rectangles `(0, 0, 120, 60)` and `(284, 0, 120,
60)` and a connection that names the top handle of its destination and no
handle of its source, `getConnectionPath` ends at the boundary point
`(284, 30)` while the tip of `getArrowPath` is the handle `(344, 0)`. -/
theorem arrow_tip_off_path_end :
    getConnectionPath ratSqrt [rectNode, rectNodeB] mixedConnection.from_ mixedConnection.to_
        (some mixedConnection) =
      .segment ⟨.fin 120, .fin 30⟩ ⟨.fin 284, .fin 30⟩ ∧
    ∃ p1 p2, getArrowPath ratSqrt [rectNode, rectNodeB] mixedConnection =
      .triangle ⟨.fin 344, .fin 0⟩ p1 p2 := by
  have hA : [rectNode, rectNodeB].find? (fun n => decide (n.id = "node-1")) = some rectNode := by
    simp [rectNode, rectNodeB, mkNode]
  have hB : [rectNode, rectNodeB].find? (fun n => decide (n.id = "node-5")) = some rectNodeB := by
    simp [rectNode, rectNodeB, mkNode]
  have hsqrt : ratSqrt 51076 = 226 := by
    have h := ratSqrt_sq_nat 226
    norm_num at h
    exact h
  constructor
  · show getConnectionPath ratSqrt [rectNode, rectNodeB] "node-1" "node-5"
      (some mixedConnection) = _
    rw [getConnectionPath_edge ratSqrt [rectNode, rectNodeB] rectNode rectNodeB _ _
      (some mixedConnection) hA hB (fun c hc => Or.inl (by cases hc; rfl))]
    simp [getNodeEdgePoint, getNodeCenter, rectNode, rectNodeB, mkNode, JsNum.fin_div_fin]
    norm_num [abs_div]
  · have hto : getNodeEdgePoint ratSqrt rectNode (getNodeCenter rectNodeB) =
        ⟨.fin 120, .fin 30⟩ := by
      simp [getNodeEdgePoint, getNodeCenter, rectNode, rectNodeB, mkNode, JsNum.fin_div_fin]
      norm_num [abs_div]
    simp only [getArrowPath, mixedConnection, hA, hB, hto]
    simp [getHandlePosition, getNodeHandles, rectNodeB, mkNode, JsNum.sqrt]
    norm_num [hsqrt]

/-! ## Pointer release -/

/-- The three palette types are keys of `nodeTypes`. -/
theorem nodeTypes_of_palette {type : String}
    (h : type = "rectangle" ∨ type = "circle" ∨ type = "diamond") :
    ∃ nodeType : NodeType K, nodeTypes type = some nodeType := by
  rcases h with h | h | h <;> rw [h] <;> simp [nodeTypes]

/-- The operation `createNode` succeeds on the three palette types, and
touches only the node list and the id counter. -/
theorem createNode_of_palette (s : State K) {type : String} (x y : K)
    (h : type = "rectangle" ∨ type = "circle" ∨ type = "diamond") :
    ∃ (t : State K) (newNode : Node K), createNode s type x y = some t ∧
      t = { s with nodes := s.nodes ++ [newNode], nodeIdCounter := s.nodeIdCounter + 1 } ∧
      newNode.id = "node-" ++ toString s.nodeIdCounter := by
  obtain ⟨nodeType, hnt⟩ := nodeTypes_of_palette (K := K) h
  simp only [createNode, hnt]
  exact ⟨_, _, rfl, rfl, rfl⟩

/-- The operation `createConnection` touches only the connection list. -/
theorem createConnection_frame (s : State K) (now : Nat) (fromId toId : String)
    (fromHandle toHandle : Option HandleId) :
    ∃ cs, createConnection s now fromId toId fromHandle toHandle =
      { s with connections := cs } := by
  unfold createConnection
  split_ifs
  · exact ⟨s.connections, rfl⟩
  · split
    · exact ⟨s.connections, rfl⟩
    · exact ⟨_, rfl⟩

/-- C19, as the code has it: in a state where a connection gesture and a
palette drag are not both under way, where `connectionStart` is a non-empty id
while connecting and it and `connectionStartHandle` are clear otherwise, and
where `toolbarDragType` is clear or one of the three node types, a pointer
release succeeds and returns to Idle: the four gesture flags are false and
`connectionStart`, `connectionStartHandle`, `toolbarDragType` and
`dragPreview` are cleared, whether or not a connection or a node was made. -/
theorem handleMouseUp_returns_to_idle (sqrt : K → K) (now : Nat) (svg : Option (Bounds K))
    (s : State K) (e : MouseEvent K)
    (hexcl : s.isConnecting = true → s.isDraggingFromToolbar = false)
    (hstart : s.isConnecting = true → truthyStr s.connectionStart = true)
    (hclear : s.isConnecting = false →
      s.connectionStart = none ∧ s.connectionStartHandle = none)
    (htype : ∀ type, s.toolbarDragType = some type →
      type = "rectangle" ∨ type = "circle" ∨ type = "diamond") :
    ∃ t : State K, handleMouseUp sqrt now svg s e = some t ∧
      t.isDragging = false ∧ t.isConnecting = false ∧ t.isPanning = false ∧
      t.isDraggingFromToolbar = false ∧
      t.connectionStart = none ∧ t.connectionStartHandle = none ∧
      t.toolbarDragType = none ∧ t.dragPreview = none := by
  unfold handleMouseUp
  by_cases h1 : s.isDraggingFromToolbar = true ∧ truthyStr s.toolbarDragType = true ∧
      svg.isSome = true
  · rw [if_pos h1]
    have hconn : s.isConnecting = false := by
      cases hc : s.isConnecting with
      | false => rfl
      | true =>
        have := hexcl hc
        rw [h1.1] at this
        exact absurd this (by decide)
    obtain ⟨hcs, hch⟩ := hclear hconn
    simp only
    by_cases htarget : e.targetIsSvg = true ∨ e.targetInSvg = true
    · rw [if_pos htarget]
      cases htd : s.toolbarDragType with
      | none =>
        have := h1.2.1
        rw [htd] at this
        exact absurd this (by decide)
      | some type =>
        obtain ⟨t, newNode, hcreate, ht, -⟩ :=
          createNode_of_palette s (screenToSvg svg s.viewBox e.clientX e.clientY).x
            (screenToSvg svg s.viewBox e.clientX e.clientY).y (htype type htd)
        simp only [Option.getD_some, hcreate, Option.map_some']
        refine ⟨_, rfl, ?_⟩
        rw [ht]
        exact ⟨rfl, hconn, rfl, rfl, hcs, hch, rfl, rfl⟩
    · rw [if_neg htarget]
      exact ⟨_, rfl, rfl, hconn, rfl, rfl, hcs, hch, rfl, rfl⟩
  · rw [if_neg h1]
    by_cases h2 : s.isConnecting = true ∧ truthyStr s.connectionStart = true
    · rw [if_pos h2]
      exact ⟨_, rfl, rfl, rfl, rfl, rfl, rfl, rfl, rfl, rfl⟩
    · rw [if_neg h2]
      have hconn : s.isConnecting = false := by
        cases hc : s.isConnecting with
        | false => rfl
        | true => exact absurd ⟨hc, hstart hc⟩ h2
      obtain ⟨hcs, hch⟩ := hclear hconn
      exact ⟨_, rfl, rfl, hconn, rfl, rfl, hcs, hch, rfl, rfl⟩

/-- Witness of C19 as amended: a release after a press on the right handle of
`rectNode`. -/
theorem handleMouseUp_returns_to_idle_witness :
    ∃ t : State ℚ,
      handleMouseUp ratSqrt 0 (some canvasBounds)
        (handleHandleMouseDown { (State.initial : State ℚ) with nodes := [rectNode] }
          rectNode .right) (mkEvent 10 10 0) = some t ∧
      t.isDragging = false ∧ t.isConnecting = false ∧ t.isPanning = false ∧
      t.isDraggingFromToolbar = false ∧
      t.connectionStart = none ∧ t.connectionStartHandle = none ∧
      t.toolbarDragType = none ∧ t.dragPreview = none :=
  handleMouseUp_returns_to_idle ratSqrt 0 (some canvasBounds)
    (handleHandleMouseDown { (State.initial : State ℚ) with nodes := [rectNode] }
      rectNode .right) (mkEvent 10 10 0)
    (fun _ => rfl) (fun _ => by simp [handleHandleMouseDown, truthyStr, rectNode, mkNode])
    (fun h => by simp [handleHandleMouseDown] at h)
    (fun type h => by simp [handleHandleMouseDown, State.initial] at h)

/-- Counterexample to C19: in the state where a connection gesture from
`node-1` and a palette drag are both under way, a release outside the canvas
leaves `isConnecting` set and `connectionStart` at `node-1`. -/
theorem release_keeps_connecting :
    twoGesturesState.isConnecting = true ∧
    twoGesturesState.isDraggingFromToolbar = true ∧
    ∃ t : State ℚ,
      handleMouseUp ratSqrt 0 (some canvasBounds) twoGesturesState (mkEventOutside 10 10) =
        some t ∧
      t.isConnecting = true ∧ t.connectionStart = some "node-1" := by
  refine ⟨rfl, rfl, clearGestures twoGesturesState, ?_, rfl, rfl⟩
  simp [handleMouseUp, twoGesturesState, handleToolbarMouseDown, handleHandleMouseDown,
    truthyStr, mkEventOutside]

/-! ## One gesture at a time -/

/-- At most one of four flags is set: the flags exclude each other. -/
theorem count_true_le_one_iff (a b c d : Bool) :
    [a, b, c, d].count true ≤ 1 ↔
      (a = true → b = false ∧ c = false ∧ d = false) ∧
      (b = true → c = false ∧ d = false) ∧ (c = true → d = false) := by
  cases a <;> cases b <;> cases c <;> cases d <;> decide

/-- The handler `handleMouseMove` keeps the gesture view. -/
theorem gestureView_handleMouseMove (svg : Option (Bounds K)) (s : State K)
    (e : MouseEvent K) : gestureView (handleMouseMove svg s e) = gestureView s := by
  unfold handleMouseMove
  cases svg with
  | none => rfl
  | some rect =>
    simp only
    repeat' split
    all_goals first | rfl | exact (gestureView_updateNode _ _ _).trans rfl

/-- An id that `createNode` builds is not empty. -/
theorem node_id_ne_empty (n : Nat) : "node-" ++ toString n ≠ "" := by
  intro h
  have hlen := congrArg String.length h
  rw [String.length_append] at hlen
  have h5 : "node-".length = 5 := by decide
  have h0 : "".length = 0 := by decide
  rw [h5, h0] at hlen
  omega

/-- A press while no button is held keeps the invariant. -/
theorem GestureInv_press (svg : Option (Bounds K)) {s : State K} (p : Press K)
    (hs : GestureInv false s) (hp : p.possible s) : GestureInv true (pressStep svg s p) := by
  have hheld := GestureInv_held hs
  obtain ⟨hids, htype, hstart, hidle, hone⟩ := hs
  obtain ⟨hd, hc, hpan, ht⟩ := hidle rfl
  cases p with
  | nodeBody e node =>
    simp only [pressStep, handleMouseDown]
    split_ifs
    · exact GestureInv_congr (gestureView_finishTextEdit s) hheld
    · exact hheld
    · refine ⟨hids, htype, hstart, fun hf => Bool.noConfusion hf, ?_⟩
      simp only [atMostOneGesture, hc, hpan, ht]
      decide
  | handle node handleId =>
    simp only [pressStep, handleHandleMouseDown]
    refine ⟨hids, htype, ?_, fun hf => Bool.noConfusion hf, ?_⟩
    · intro _
      have hid : node.id ≠ "" := hids node.id (List.mem_map_of_mem (fun n => n.id) hp)
      simp [truthyStr, hid]
    · simp only [atMostOneGesture, hd, hpan, ht]
      decide
  | canvas e =>
    simp only [pressStep, handleSvgMouseDown]
    by_cases htarget : e.targetIsSvg = true
    · rw [if_pos htarget]
      have hview : gestureView (if truthyStr s.editingNode = true then finishTextEdit s else s) =
          gestureView s := by
        split_ifs
        · exact gestureView_finishTextEdit s
        · rfl
      generalize (if truthyStr s.editingNode = true then finishTextEdit s else s) = s1
        at hview ⊢
      simp only [gestureView, Prod.mk.injEq] at hview
      obtain ⟨v1, -, v3, v4, -, v6, v7⟩ := hview
      have e1 : s1.isDragging = false := v1.trans hd
      have e3 : s1.isPanning = false := v3.trans hpan
      have e4 : s1.isDraggingFromToolbar = false := v4.trans ht
      by_cases hmod : (e.ctrlKey || e.metaKey) = true
      · rw [if_pos hmod]
        refine ⟨?_, ?_, fun hf => Bool.noConfusion hf, fun hf => Bool.noConfusion hf, ?_⟩
        · simp only [v7]; exact hids
        · simp only [v6]; exact htype
        · simp only [atMostOneGesture, e1, e4]
          decide
      · rw [if_neg hmod]
        refine ⟨?_, ?_, fun hf => Bool.noConfusion hf, fun hf => Bool.noConfusion hf, ?_⟩
        · simp only [v7]; exact hids
        · simp only [v6]; exact htype
        · simp only [atMostOneGesture, e1, e3, e4]
          decide
    · rw [if_neg htarget]
      exact hheld
  | palette e type =>
    simp only [pressStep, handleToolbarMouseDown]
    refine ⟨hids, ?_, hstart, fun hf => Bool.noConfusion hf, ?_⟩
    · intro t ht'
      simp only [Option.some.injEq] at ht'
      rw [← ht']
      exact hp
    · simp only [atMostOneGesture, hd, hc, hpan]
      decide

/-- A release keeps the invariant and leaves no button held. -/
theorem GestureInv_release (sqrt : K → K) (now : Nat) (svg : Option (Bounds K)) {held : Bool}
    {s t : State K} (e : MouseEvent K) (hs : GestureInv held s)
    (hup : handleMouseUp sqrt now svg s e = some t) : GestureInv false t := by
  obtain ⟨hids, htype, hstart, -, hone⟩ := hs
  have hflags := (count_true_le_one_iff _ _ _ _).1 hone
  have hidleInv : ∀ u : State K, (∀ id ∈ u.nodes.map (fun n => n.id), id ≠ "") →
      u.isConnecting = false → GestureInv false (clearGestures u) := by
    intro u hu hcu
    refine ⟨hu, fun type h => by simp [clearGestures] at h,
      fun h => by simp [clearGestures, hcu] at h, fun _ => ⟨rfl, hcu, rfl, rfl⟩, ?_⟩
    simp only [atMostOneGesture, clearGestures, hcu]
    decide
  unfold handleMouseUp at hup
  by_cases h1 : s.isDraggingFromToolbar = true ∧ truthyStr s.toolbarDragType = true ∧
      svg.isSome = true
  · rw [if_pos h1] at hup
    have hconn : s.isConnecting = false := by
      cases hc : s.isConnecting with
      | false => rfl
      | true =>
        have := (hflags.2.1 hc).2
        rw [h1.1] at this
        exact absurd this (by decide)
    simp only at hup
    by_cases htarget : e.targetIsSvg = true ∨ e.targetInSvg = true
    · rw [if_pos htarget] at hup
      cases htd : s.toolbarDragType with
      | none =>
        have := h1.2.1
        rw [htd] at this
        exact absurd this (by decide)
      | some type =>
        obtain ⟨t0, newNode, hcreate, ht0, hid⟩ :=
          createNode_of_palette s (screenToSvg svg s.viewBox e.clientX e.clientY).x
            (screenToSvg svg s.viewBox e.clientX e.clientY).y (htype type htd)
        simp only [htd, Option.getD_some, hcreate, Option.map_some', Option.some.injEq] at hup
        rw [← hup]
        apply hidleInv
        · rw [ht0]
          intro id hmem
          simp only [List.map_append, List.map_cons, List.map_nil, List.mem_append,
            List.mem_singleton] at hmem
          rcases hmem with h | h
          · exact hids id h
          · rw [h, hid]
            exact node_id_ne_empty _
        · rw [ht0]
          exact hconn
    · rw [if_neg htarget] at hup
      simp only [Option.some.injEq] at hup
      rw [← hup]
      exact hidleInv s hids hconn
  · rw [if_neg h1] at hup
    by_cases h2 : s.isConnecting = true ∧ truthyStr s.connectionStart = true
    · rw [if_pos h2] at hup
      simp only [Option.some.injEq] at hup
      rw [← hup]
      apply hidleInv
      · have hcc : ∀ a b c d, (createConnection s now a b c d).nodes = s.nodes := by
          intro a b c d
          obtain ⟨cs, h⟩ := createConnection_frame s now a b c d
          rw [h]
        split
        · intro id hmem
          exact hids id (by simpa only [hcc] using hmem)
        · exact hids
      · rfl
    · rw [if_neg h2] at hup
      simp only [Option.some.injEq] at hup
      rw [← hup]
      apply hidleInv s hids
      cases hc : s.isConnecting with
      | false => rfl
      | true => exact absurd ⟨hc, hstart hc⟩ h2

/-- Every state of an alternating sequence satisfies the invariant. -/
theorem alternating_inv (sqrt : K → K) {held : Bool} {s : State K}
    (h : AlternatingReach sqrt held s) : GestureInv held s := by
  induction h with
  | initial =>
    refine ⟨fun id h => by simp [State.initial] at h,
      fun type h => by simp [State.initial] at h,
      fun h => by simp [State.initial] at h, fun _ => ⟨rfl, rfl, rfl, rfl⟩, ?_⟩
    simp only [atMostOneGesture, State.initial]
    decide
  | press svg p _ hp ih => exact GestureInv_press svg p ih hp
  | move svg e _ ih => exact GestureInv_congr (gestureView_handleMouseMove svg _ e) ih
  | release now svg e _ hup ih => exact GestureInv_release sqrt now svg e ih hup

/-- Under the invariant a release succeeds. -/
theorem release_succeeds (sqrt : K → K) (now : Nat) (svg : Option (Bounds K)) {held : Bool}
    {s : State K} (e : MouseEvent K) (hs : GestureInv held s) :
    ∃ t, handleMouseUp sqrt now svg s e = some t := by
  obtain ⟨-, htype, -, -, -⟩ := hs
  unfold handleMouseUp
  split_ifs with h1 h2 h3
  · cases htd : s.toolbarDragType with
    | none =>
      have := h1.2.1
      rw [htd] at this
      exact absurd this (by decide)
    | some type =>
      obtain ⟨t0, newNode, hcreate, -, -⟩ :=
        createNode_of_palette s (screenToSvg svg s.viewBox e.clientX e.clientY).x
          (screenToSvg svg s.viewBox e.clientX e.clientY).y (htype type htd)
      simp only [Option.getD_some, hcreate, Option.map_some']
      exact ⟨_, rfl⟩
  · exact ⟨_, rfl⟩
  · exact ⟨_, rfl⟩
  · exact ⟨_, rfl⟩

/-- C18, as the code has it: in every state reached from the initial state by
presses (on a node body, a connection handle, the canvas with or without the
modifier key, a palette entry), moves and releases in which every press comes
while no button is held, at most one of `isDragging`, `isConnecting`,
`isPanning` and `isDraggingFromToolbar` is set, none of them is set while no
button is held, and a release succeeds. -/
theorem alternating_gestures_exclusive (sqrt : K → K) (held : Bool) (s : State K)
    (h : AlternatingReach sqrt held s) :
    atMostOneGesture s ∧
    (held = false → s.isDragging = false ∧ s.isConnecting = false ∧ s.isPanning = false ∧
      s.isDraggingFromToolbar = false) ∧
    ∀ (now : Nat) (svg : Option (Bounds K)) (e : MouseEvent K),
      ∃ t, handleMouseUp sqrt now svg s e = some t :=
  ⟨(alternating_inv sqrt h).2.2.2.2, (alternating_inv sqrt h).2.2.2.1,
    fun now svg e => release_succeeds sqrt now svg e (alternating_inv sqrt h)⟩

/-- Witness of C18 as amended: the state after a press on the rectangle entry
of the palette. -/
theorem alternating_gestures_exclusive_witness :
    AlternatingReach ratSqrt true
      (pressStep none (State.initial : State ℚ) (.palette (mkEventOutside 10 10) "rectangle")) ∧
    atMostOneGesture
      (pressStep none (State.initial : State ℚ) (.palette (mkEventOutside 10 10) "rectangle")) :=
  ⟨AlternatingReach.press none (.palette (mkEventOutside 10 10) "rectangle")
      AlternatingReach.initial (Or.inl rfl),
    (alternating_gestures_exclusive ratSqrt true _
      (AlternatingReach.press none (.palette (mkEventOutside 10 10) "rectangle")
        AlternatingReach.initial (Or.inl rfl))).1⟩

/-- Counterexample to C18: from the initial state, a press on the rectangle
entry of the palette followed, without a release, by a press on the canvas
with the control key held gives a state with `isDraggingFromToolbar` and
`isPanning` both set. -/
theorem two_presses_two_gestures :
    ∃ s : State ℚ, PointerReach ratSqrt s ∧
      s.isDraggingFromToolbar = true ∧ s.isPanning = true ∧ ¬ atMostOneGesture s := by
  refine ⟨pressStep (some canvasBounds)
      (pressStep (some canvasBounds) State.initial (.palette (mkEventOutside 10 10) "rectangle"))
      (.canvas (mkCtrlEvent 300 300)), ?_, rfl, rfl, ?_⟩
  · exact PointerReach.press (some canvasBounds) (.canvas (mkCtrlEvent 300 300))
      (PointerReach.press (some canvasBounds) (.palette (mkEventOutside 10 10) "rectangle")
        PointerReach.initial (Or.inl rfl)) trivial
  · simp [atMostOneGesture, pressStep, handleSvgMouseDown, handleToolbarMouseDown,
      mkCtrlEvent, State.initial, truthyStr]

end Gestures

section Editing

variable {K : Type} [LinearOrderedField K]

/-! ## Panning -/

/-- C21, as the code has it: a pointer move while panning with no node drag
and no palette drag under way (the pan flag set; `isDragging` clear or no node
selected; `isDraggingFromToolbar` clear or no palette type), on the mounted
canvas, moves the view box origin to
`origin - (current - last) * (viewBox size / bounds size)` on each axis and
keeps the view box width and height; besides the view box it sets only the
two cursor cells `currentMousePos` and `lastMousePos`.  The logical point
under the cursor after the move is then the one that was under the cursor
before it. -/
theorem pan_move_shifts_origin (rect : Bounds K) (s : State K) (e : MouseEvent K)
    (hpan : s.isPanning = true)
    (hdrag : s.isDragging = false ∨ s.selectedNode = none)
    (htool : s.isDraggingFromToolbar = false ∨ truthyStr s.toolbarDragType = false) :
    handleMouseMove (some rect) s e =
      { s with
        currentMousePos := screenToSvg (some rect) s.viewBox e.clientX e.clientY
        viewBox :=
          { x := s.viewBox.x - (e.clientX - s.lastMousePos.x) * (s.viewBox.width / rect.width),
            y := s.viewBox.y - (e.clientY - s.lastMousePos.y) * (s.viewBox.height / rect.height),
            width := s.viewBox.width,
            height := s.viewBox.height }
        lastMousePos := { x := e.clientX, y := e.clientY } } ∧
    (handleMouseMove (some rect) s e).viewBox.x =
      s.viewBox.x - (e.clientX - s.lastMousePos.x) * (s.viewBox.width / rect.width) ∧
    (handleMouseMove (some rect) s e).viewBox.y =
      s.viewBox.y - (e.clientY - s.lastMousePos.y) * (s.viewBox.height / rect.height) ∧
    (handleMouseMove (some rect) s e).viewBox.width = s.viewBox.width ∧
    (handleMouseMove (some rect) s e).viewBox.height = s.viewBox.height ∧
    (handleMouseMove (some rect) s e).nodes = s.nodes ∧
    (handleMouseMove (some rect) s e).connections = s.connections ∧
    (handleMouseMove (some rect) s e).zoom = s.zoom ∧
    screenToSvg (some rect) (handleMouseMove (some rect) s e).viewBox e.clientX e.clientY =
      screenToSvg (some rect) s.viewBox s.lastMousePos.x s.lastMousePos.y := by
  have hmove : handleMouseMove (some rect) s e =
      { s with
        currentMousePos := screenToSvg (some rect) s.viewBox e.clientX e.clientY
        viewBox :=
          { x := s.viewBox.x - (e.clientX - s.lastMousePos.x) * (s.viewBox.width / rect.width),
            y := s.viewBox.y - (e.clientY - s.lastMousePos.y) * (s.viewBox.height / rect.height),
            width := s.viewBox.width,
            height := s.viewBox.height }
        lastMousePos := { x := e.clientX, y := e.clientY } } := by
    have h1 : ¬ (s.isDraggingFromToolbar = true ∧ truthyStr s.toolbarDragType = true) := by
      rintro ⟨ha, hb⟩
      rcases htool with h | h
      · rw [h] at ha; exact Bool.noConfusion ha
      · rw [h] at hb; exact Bool.noConfusion hb
    simp only [handleMouseMove, if_neg h1]
    rcases hdrag with h | h
    · simp only [h, hpan, if_true]
    · cases hd : s.isDragging <;> simp only [h, hpan, if_true]
  rw [hmove]
  refine ⟨rfl, rfl, rfl, rfl, rfl, rfl, rfl, rfl, ?_⟩
  simp only [screenToSvg, Point.mk.injEq]
  exact ⟨by ring, by ring⟩

/-- Witness of C21 as amended: the pan started at `(300, 300)` on the 1200 × 800 canvas,
moved to `(350, 320)`; the view box origin goes from `(0, 0)` to `(-50, -20)`. -/
theorem pan_move_shifts_origin_witness :
    panningState.isPanning = true ∧
    (handleMouseMove (some canvasBounds) panningState (mkEvent 350 320 0)).viewBox =
      { x := -50, y := -20, width := 1200, height := 800 } ∧
    screenToSvg (some canvasBounds)
        (handleMouseMove (some canvasBounds) panningState (mkEvent 350 320 0)).viewBox
        (mkEvent 350 320 0).clientX (mkEvent 350 320 0).clientY =
      screenToSvg (some canvasBounds) panningState.viewBox
        panningState.lastMousePos.x panningState.lastMousePos.y := by
  have h := pan_move_shifts_origin canvasBounds panningState (mkEvent 350 320 0) rfl
    (Or.inl rfl) (Or.inl rfl)
  refine ⟨rfl, ?_, h.2.2.2.2.2.2.2.2⟩
  rw [h.1]
  norm_num [panningState, handleSvgMouseDown, mkCtrlEvent, mkEvent, canvasBounds, State.initial,
    truthyStr]

/-! ## Creating a node -/

/-- C22: for each of the types rectangle, circle and diamond and every point
`(px, py)`, `createNode` succeeds and appends exactly one node of that type,
with the default width and height of the type (120 × 60, 100 × 100,
120 × 80), empty text and top-left corner `(px - width / 2, py - height / 2)`,
so that its center is `(px, py)`; the existing nodes stay as they were, in
front of it; and the callback it defers opens the text edit on the new node
with an empty buffer, touching no node. -/
theorem createNode_centered (s : State K) (type : String) (px py : K)
    (htype : type = "rectangle" ∨ type = "circle" ∨ type = "diamond") :
    ∃ (t : State K) (newNode : Node K),
      createNode s type px py = some t ∧
      t = { s with nodes := s.nodes ++ [newNode], nodeIdCounter := s.nodeIdCounter + 1 } ∧
      t.nodes = s.nodes ++ [newNode] ∧
      newNode.type = type ∧ newNode.text = "" ∧
      (∃ nodeType : NodeType K, nodeTypes type = some nodeType ∧
        newNode.width = nodeType.defaultWidth ∧ newNode.height = nodeType.defaultHeight) ∧
      (type = "rectangle" → newNode.width = 120 ∧ newNode.height = 60) ∧
      (type = "circle" → newNode.width = 100 ∧ newNode.height = 100) ∧
      (type = "diamond" → newNode.width = 120 ∧ newNode.height = 80) ∧
      newNode.x = px - newNode.width / 2 ∧ newNode.y = py - newNode.height / 2 ∧
      getNodeCenter newNode = { x := px, y := py } ∧
      (createNodeDeferred s t).editingNode = some newNode.id ∧
      (createNodeDeferred s t).editingText = "" ∧
      (createNodeDeferred s t).nodes = t.nodes ∧
      ∀ later : State K,
        createNodeDeferred s later =
          { later with editingNode := some newNode.id, editingText := "" } := by
  have hcenter : ∀ w h : K, getNodeCenter
      ({ id := "node-" ++ toString s.nodeIdCounter, type := type, x := px - w / 2,
         y := py - h / 2, width := w, height := h, text := "", color := "#3b82f6",
         textColor := "#ffffff", borderColor := "#1e40af", borderWidth := 2 } : Node K) =
      { x := px, y := py } := by
    intro w h
    simp only [getNodeCenter, Point.mk.injEq]
    exact ⟨by ring, by ring⟩
  rcases htype with h | h | h
  · subst h
    refine ⟨_, _, by simp only [createNode, nodeTypes]; rfl, rfl, rfl, rfl, rfl,
      ⟨_, rfl, rfl, rfl⟩, fun _ => ⟨rfl, rfl⟩, fun h => absurd h (by decide),
      fun h => absurd h (by decide), rfl, rfl, hcenter _ _, rfl, rfl, rfl, fun _ => rfl⟩
  · subst h
    refine ⟨_, _, by simp only [createNode, nodeTypes]; rfl, rfl, rfl, rfl, rfl,
      ⟨_, rfl, rfl, rfl⟩, fun h => absurd h (by decide), fun _ => ⟨rfl, rfl⟩,
      fun h => absurd h (by decide), rfl, rfl, hcenter _ _, rfl, rfl, rfl, fun _ => rfl⟩
  · subst h
    refine ⟨_, _, by simp only [createNode, nodeTypes]; rfl, rfl, rfl, rfl, rfl,
      ⟨_, rfl, rfl, rfl⟩, fun h => absurd h (by decide), fun h => absurd h (by decide),
      fun _ => ⟨rfl, rfl⟩, rfl, rfl, hcenter _ _, rfl, rfl, rfl, fun _ => rfl⟩

/-- Witness of C22: a circle created at `(200, 150)` from the initial state. -/
theorem createNode_centered_witness :
    ∃ (t : State ℚ) (newNode : Node ℚ),
      createNode (State.initial : State ℚ) "circle" 200 150 = some t ∧
      t.nodes = [newNode] ∧ newNode.type = "circle" ∧
      newNode.width = 100 ∧ newNode.height = 100 ∧
      newNode.x = 150 ∧ newNode.y = 100 ∧
      getNodeCenter newNode = { x := 200, y := 150 } ∧
      (createNodeDeferred (State.initial : State ℚ) t).editingNode = some newNode.id := by
  obtain ⟨t, newNode, h1, -, h3, h4, -, -, -, h8, -, h10, h11, h12, h13, -⟩ :=
    createNode_centered (State.initial : State ℚ) "circle" 200 150 (Or.inr (Or.inl rfl))
  obtain ⟨hw, hh⟩ := h8 rfl
  refine ⟨t, newNode, h1, by simpa [State.initial] using h3, h4, hw, hh, ?_, ?_, h12, h13⟩
  · rw [h10, hw]; norm_num
  · rw [h11, hh]; norm_num

/-! ## Committing and cancelling a text edit -/

/-- C23, as the code has it: with a text edit open on the node id `id` (a
non-empty id in `editingNode`) and the buffer `editingText`, Enter and the loss
of focus both
run `finishTextEdit`, which sets the text of the nodes of that id to the
buffer, changes no other field of them and no node of another id, and keeps
the order; where node ids are pairwise distinct, the one node `n` of that id
is the only one changed.  Escape leaves every node as it is.  Both close the
session (`editingNode` is null) and empty the buffer, and leave the rest of
the state alone.  With no session open `finishTextEdit` changes nothing. -/
theorem text_edit_commit_cancel (s : State K) :
    (∀ id : String, id ≠ "" → s.editingNode = some id →
      handleTextEditKeyDown s "Enter" = finishTextEdit s ∧
      finishTextEdit s =
        { s with
          nodes := s.nodes.map (fun n =>
            if n.id = id then { n with text := s.editingText } else n)
          editingNode := none
          editingText := "" } ∧
      (finishTextEdit s).editingNode = none ∧ (finishTextEdit s).editingText = "" ∧
      (∀ n ∈ s.nodes, n.id = id → (s.nodes.map (fun m => m.id)).Nodup →
        (finishTextEdit s).nodes =
          s.nodes.map (fun m => if m = n then { n with text := s.editingText } else m)) ∧
      handleTextEditKeyDown s "Escape" = { s with editingNode := none, editingText := "" } ∧
      (handleTextEditKeyDown s "Escape").nodes = s.nodes ∧
      (handleTextEditKeyDown s "Escape").editingNode = none ∧
      (handleTextEditKeyDown s "Escape").editingText = "") ∧
    (s.editingNode = none → finishTextEdit s = s ∧ handleTextEditKeyDown s "Enter" = s) := by
  have henter : handleTextEditKeyDown s "Enter" = finishTextEdit s := by
    simp only [handleTextEditKeyDown, if_true]
  have hescape : handleTextEditKeyDown s "Escape" =
      { s with editingNode := none, editingText := "" } := by
    have hne : ¬ ("Escape" = "Enter") := by decide
    simp only [handleTextEditKeyDown, if_neg hne, if_true]
  refine ⟨?_, ?_⟩
  · intro id hid hs
    have hfinish : finishTextEdit s =
        { s with
          nodes := s.nodes.map (fun n =>
            if n.id = id then { n with text := s.editingText } else n)
          editingNode := none
          editingText := "" } := by
      simp only [finishTextEdit, hs, updateNode, Node.update, Option.getD_some, Option.getD_none,
        ne_eq, hid, not_false_eq_true, if_true]
    refine ⟨henter, hfinish, ?_, ?_, ?_, hescape, ?_, ?_, ?_⟩
    · rw [hfinish]
    · rw [hfinish]
    · intro n hn hnid hnodup
      rw [hfinish]
      simp only
      apply List.map_congr_left
      intro m hm
      by_cases hmn : m = n
      · rw [if_pos hmn, hmn, if_pos hnid]
      · rw [if_neg hmn]
        have hmid : m.id ≠ id := by
          intro h
          exact hmn (List.inj_on_of_nodup_map hnodup hm hn (h.trans hnid.symm))
        rw [if_neg hmid]
    · rw [hescape]
    · rw [hescape]
    · rw [hescape]
  · intro hnone
    have h : finishTextEdit s = s := by
      simp only [finishTextEdit, hnone]
    exact ⟨h, henter.trans h⟩

/-- Witness of C23 as amended: the nodes `rectNode` and `circleA` with an edit open on
`rectNode` and the buffer `Start`; Enter stores `Start` in `rectNode` only,
Escape stores nothing. -/
theorem text_edit_commit_cancel_witness :
    editingState.editingNode = some "node-1" ∧
    (handleTextEditKeyDown editingState "Enter").nodes =
      [{ rectNode with text := "Start" }, circleA] ∧
    (handleTextEditKeyDown editingState "Enter").editingNode = none ∧
    (handleTextEditKeyDown editingState "Enter").editingText = "" ∧
    (handleTextEditKeyDown editingState "Escape").nodes = [rectNode, circleA] ∧
    (handleTextEditKeyDown editingState "Escape").editingNode = none := by
  obtain ⟨h1, h2, h3, h4, -, -, h7, h8, -⟩ :=
    (text_edit_commit_cancel editingState).1 "node-1" (by decide) rfl
  refine ⟨rfl, ?_, ?_, ?_, h7, h8⟩
  · rw [h1, h2]
    simp [editingState, startTextEdit, State.initial, rectNode, circleA, mkNode]
  · rw [h1]; exact h3
  · rw [h1]; exact h4

/-- Counterexample to C21: in the state reached by a press on the palette
followed, without a release, by a press on the canvas with the control key
held at `(300, 300)`, the pan flag is set, yet a move to `(350, 320)` takes the
palette branch of `handleMouseMove` and leaves the view box `(0, 0, 1200,
800)` where it was, while the claimed origin is `(-50, -20)`. -/
theorem pan_move_blocked_by_palette_drag :
    PointerReach ratSqrt paletteThenPanState ∧
    paletteThenPanState.isPanning = true ∧
    paletteThenPanState.lastMousePos = { x := 300, y := 300 } ∧
    (handleMouseMove (some canvasBounds) paletteThenPanState (mkEvent 350 320 0)).viewBox =
      paletteThenPanState.viewBox ∧
    paletteThenPanState.viewBox.x -
        ((mkEvent 350 320 0).clientX - paletteThenPanState.lastMousePos.x) *
          (paletteThenPanState.viewBox.width / canvasBounds.width) = -50 ∧
    (handleMouseMove (some canvasBounds) paletteThenPanState (mkEvent 350 320 0)).viewBox.x ≠
      paletteThenPanState.viewBox.x -
        ((mkEvent 350 320 0).clientX - paletteThenPanState.lastMousePos.x) *
          (paletteThenPanState.viewBox.width / canvasBounds.width) := by
  have hmove : (handleMouseMove (some canvasBounds) paletteThenPanState
      (mkEvent 350 320 0)).viewBox = paletteThenPanState.viewBox := by
    simp [handleMouseMove, paletteThenPanState, pressStep, handleSvgMouseDown,
      handleToolbarMouseDown, mkCtrlEvent, mkEventOutside, State.initial, truthyStr]
  have hclaimed : paletteThenPanState.viewBox.x -
      ((mkEvent 350 320 0).clientX - paletteThenPanState.lastMousePos.x) *
        (paletteThenPanState.viewBox.width / canvasBounds.width) = -50 := by
    norm_num [paletteThenPanState, pressStep, handleSvgMouseDown, handleToolbarMouseDown,
      mkCtrlEvent, mkEventOutside, mkEvent, canvasBounds, State.initial, truthyStr]
  refine ⟨?_, rfl, rfl, hmove, hclaimed, ?_⟩
  · exact PointerReach.press (some canvasBounds) (.canvas (mkCtrlEvent 300 300))
      (PointerReach.press (some canvasBounds) (.palette (mkEventOutside 10 10) "rectangle")
        PointerReach.initial (Or.inl rfl)) trivial
  · rw [hmove, hclaimed]
    norm_num [paletteThenPanState, pressStep, handleSvgMouseDown, handleToolbarMouseDown,
      mkCtrlEvent, State.initial, truthyStr]

/-- Counterexample to C23: after the import of a document holding `node-1` and
a `createNode`, both nodes have the id `node-1`; with the edit that
`createNode` opens on the new node and the buffer `New`, Enter sets the text of
both nodes to `New`, so the imported node, whose text was empty, changes too. -/
theorem commit_changes_both_duplicates :
    duplicateIdEditState.editingNode = some "node-1" ∧
    duplicateIdEditState.editingText = "New" ∧
    duplicateIdEditState.nodes.map (fun n => (n.id, n.text)) =
      [("node-1", ""), ("node-1", "")] ∧
    (handleTextEditKeyDown duplicateIdEditState "Enter").nodes.map (fun n => (n.id, n.text)) =
      [("node-1", "New"), ("node-1", "New")] ∧
    ∃ other ∈ duplicateIdEditState.nodes,
      duplicateIdEditState.nodes.getLast? ≠ some other ∧
      other ∉ (handleTextEditKeyDown duplicateIdEditState "Enter").nodes := by
  have hid : "node-" ++ toString (1 : ℕ) = "node-1" := by decide
  have hnodes : duplicateIdEditState.nodes =
      [rectNode, mkNode "node-1" "rectangle" (-60) (-30) 120 60] := by
    simp [duplicateIdEditState, duplicateIdState, createNodeDeferred, createNode, nodeTypes,
      importDocument, oneNodeDocument, State.initial, hid, mkNode]
    norm_num
  have hedit : duplicateIdEditState.editingNode = some "node-1" := by
    simp [duplicateIdEditState, createNodeDeferred, importDocument, State.initial, hid]
  have hafter : (handleTextEditKeyDown duplicateIdEditState "Enter").nodes =
      [{ rectNode with text := "New" },
       { mkNode "node-1" "rectangle" (-60) (-30) 120 60 with text := "New" }] := by
    have hbuf : duplicateIdEditState.editingText = "New" := rfl
    simp [handleTextEditKeyDown, finishTextEdit, hedit, updateNode, Node.update, hnodes, hbuf,
      rectNode, mkNode]
  refine ⟨hedit, rfl, ?_, ?_, rectNode, ?_, ?_, ?_⟩
  · rw [hnodes]; simp [rectNode, mkNode]
  · rw [hafter]; simp [rectNode, mkNode]
  · rw [hnodes]; simp
  · rw [hnodes]; simp [rectNode, mkNode]
  · rw [hafter]; simp [rectNode, mkNode]

end Editing

end Flowchart
